import Mathlib

/-!
Verification development for the redfish_investigation report scripts.

The Python sources are embedded shallowly: JSON documents become the
inductive `Json`, snapshot directories become functions from relative
paths to optional parsed documents, and each walk becomes a recursive
function.  Python statements that can raise are modelled in
`Except PyErr`; pure helpers are total Lean functions.
-/

namespace Redfish

/-- A JSON value as produced by Python `json.load`.  Python has no
separate null: `json.load` decodes JSON `null` to Python `None`, so
`Json.null` plays both roles.  Integers and floats are kept apart
because the scripts test `isinstance(x, int)`.  Objects are key/value
lists in document order; `json.load` dedups duplicate keys, so lookups
assume the first matching key is the only one. -/
inductive Json where
  | null : Json
  | bool : Bool → Json
  | int : Int → Json
  | num : ℚ → Json
  | str : String → Json
  | arr : List Json → Json
  | obj : List (String × Json) → Json

/-- The `is None` test of Python on a decoded JSON value. -/
def Json.isNull : Json → Bool
  | Json.null => true
  | _ => false

/-- Keys accepted by `safe_get`: field names or integer indices. -/
inductive PyKey where
  | str : String → PyKey
  | int : Int → PyKey
deriving DecidableEq

/-- Exceptions the embedded code can raise. -/
inductive PyErr where
  | attributeError : PyErr
  | typeError : PyErr
  | keyError : PyErr
  | indexError : PyErr
deriving DecidableEq

/-- Field lookup in an object, Python `dict` access. -/
def lookupObj (kvs : List (String × Json)) (k : String) : Option Json :=
  (kvs.find? (fun kv => kv.1 == k)).map (fun kv => kv.2)

/-- Python truthiness of a decoded JSON value. -/
def pyTruthy : Json → Bool
  | Json.null => false
  | Json.bool b => b
  | Json.int n => n != 0
  | Json.num q => q != 0
  | Json.str s => s != ""
  | Json.arr xs => !xs.isEmpty
  | Json.obj kvs => !kvs.isEmpty

/-- Python `a or b` on decoded JSON values: `a` if truthy, else `b`. -/
def pyOr (a b : Json) : Json :=
  if pyTruthy a then a else b

/-- The function `safe_get` as defined identically in report_raid.py, report_power.py,
report_fans.py, report_temperature.py and report_device_type.py: walk the
keys; on a dict do `current.get(key, default)`, on a list require an int
key with `0 <= key < len`, otherwise return the default; after every step
a `None` (null) current returns the default.  Note that a missing dict
field substitutes the default and keeps navigating into it when the
default is not null. -/
def safe_get (data : Json) (keys : List PyKey) (default : Json) : Json :=
  match keys with
  | [] => data
  | k :: ks =>
    match data with
    | Json.obj kvs =>
      let next :=
        match k with
        | PyKey.str s => (lookupObj kvs s).getD default
        | PyKey.int _ => default
      if next.isNull then default else safe_get next ks default
    | Json.arr xs =>
      match k with
      | PyKey.int i =>
        if h : 0 ≤ i ∧ i.toNat < xs.length then
          let next := xs.get ⟨i.toNat, h.2⟩
          if next.isNull then default else safe_get next ks default
        else default
      | PyKey.str _ => default
    | _ => default

/-- The divergent `safe_get` of script.py: on a dict it does
`current.get(key)` and returns the default on `None`; on a non-empty
list it only checks `key < len(current)`, so a negative index reaches
Python subscripting, which indexes from the end for `-len ≤ key < 0`
and raises `IndexError` below that; no null check follows a list step;
the final line returns the default when the current value is null. -/
def safe_get_script (data : Json) (keys : List PyKey) (default : Json) :
    Except PyErr Json :=
  match keys with
  | [] => Except.ok (if data.isNull then default else data)
  | k :: ks =>
    match data with
    | Json.obj kvs =>
      match k with
      | PyKey.str s =>
        match lookupObj kvs s with
        | none => Except.ok default
        | some v =>
          if v.isNull then Except.ok default
          else safe_get_script v ks default
      | PyKey.int _ => Except.ok default
    | Json.arr xs =>
      if xs.isEmpty then Except.ok default
      else
        match k with
        | PyKey.int i =>
          if i < (xs.length : Int) then
            let j := if i < 0 then i + xs.length else i
            if h : 0 ≤ j ∧ j.toNat < xs.length then
              safe_get_script (xs.get ⟨j.toNat, h.2⟩) ks default
            else Except.error PyErr.indexError
          else Except.ok default
        | PyKey.str _ => Except.ok default
    | _ => Except.ok default

/-- Specification-side navigation, written from the spec words of
section 4.1: descend by object field and in-range array index; any
inapplicable step yields nothing.  Used to state what "a key sequence
that addresses an existing path" means, for comparison with the two
`safe_get` implementations. -/
def specNavigatePath : Json → List PyKey → Option Json
  | v, [] => some v
  | Json.obj kvs, PyKey.str s :: ks =>
    (lookupObj kvs s).bind (fun v => specNavigatePath v ks)
  | Json.arr xs, PyKey.int i :: ks =>
    if h : 0 ≤ i ∧ i.toNat < xs.length then
      specNavigatePath (xs.get ⟨i.toNat, h.2⟩) ks
    else none
  | _, _ => none

/-- Python `s.rstrip(ASCII slash)`: drop trailing slash characters. -/
def pyRstripSlash (s : String) : String :=
  String.mk ((s.data.reverse.dropWhile (fun c => c = '/')).reverse)

/-- Python `s.split(sep)` for the single-character separator slash,
on the character list: always at least one (possibly empty) piece. -/
def pySplitSlash : List Char → List (List Char)
  | [] => [[]]
  | c :: rest =>
    let r := pySplitSlash rest
    if c = '/' then [] :: r
    else
      match r with
      | p :: ps => (c :: p) :: ps
      | [] => [[c]]

/-- The functions `_last_segment` (report_raid.py, report_temperature.py,
report_device_type.py) and `extract_chassis_id` (script.py,
report_power.py, report_fans.py), which share one body: falsy input
(absent or empty string) gives nothing, otherwise the last piece of the
rstripped string split on slashes; the `if parts else None` guard is
kept although `split` never returns an empty list. -/
def lastSegment : Option String → Option String
  | none => none
  | some s =>
    if s = "" then none
    else
      match (pySplitSlash (pyRstripSlash s).data).getLast? with
      | some seg => some (String.mk seg)
      | none => none

/-- The trailing run of non-slash characters of the rstripped string:
the "final path segment after stripping trailing slashes" in the words
of the spec, used to characterise `lastSegment`. -/
def finalSegmentRun (s : String) : String :=
  String.mk (((pyRstripSlash s).data.reverse.takeWhile (fun c => c ≠ '/')).reverse)

/-- Calling `_last_segment` on an arbitrary decoded JSON value, as the
walks do: a string goes through `lastSegment`; any other falsy value
fails the `if not odata_id` test and gives nothing; a truthy non-string
has no `rstrip` method and raises `AttributeError`. -/
def lastSegmentJson : Json → Except PyErr (Option String)
  | Json.str s => Except.ok (lastSegment (some s))
  | j => if pyTruthy j then Except.error PyErr.attributeError else Except.ok none

/-- Round half to even on rationals, the tie rule of Python `round`. -/
def roundHalfEven (y : ℚ) : Int :=
  let f : Int := ⌊y⌋
  if y - f < 1/2 then f
  else if 1/2 < y - f then f + 1
  else if f % 2 = 0 then f else f + 1

/-- Python `round(x, 2)` on an exact rational value. -/
def pyRound2 (q : ℚ) : ℚ :=
  (roundHalfEven (q * 100) : ℚ) / 100

/-- The function `_bytes_to_gib` of report_raid.py: `isinstance(num_bytes, int)` →
`round(num_bytes / 1024 ** 3, 2)`, else `None`.  Python booleans are
ints, so a boolean passes the isinstance test and converts as 0 or 1;
every other value, null included, yields `none`.  The division is
modelled exactly on rationals. -/
def bytesToGib : Json → Option ℚ
  | Json.int n => some (pyRound2 ((n : ℚ) / (1024 : ℚ) ^ 3))
  | Json.bool b => some (pyRound2 ((if b then 1 else 0) / (1024 : ℚ) ^ 3))
  | _ => none

/-- Python `x.get(k, d)`: requires a dict, otherwise `AttributeError`. -/
def pyGet (j : Json) (k : String) (d : Json) : Except PyErr Json :=
  match j with
  | Json.obj kvs => Except.ok ((lookupObj kvs k).getD d)
  | _ => Except.error PyErr.attributeError

/-- Python `len(x)` on a decoded JSON value. -/
def pyLen : Json → Except PyErr Nat
  | Json.arr xs => Except.ok xs.length
  | Json.obj kvs => Except.ok kvs.length
  | Json.str s => Except.ok s.length
  | _ => Except.error PyErr.typeError

/-- ASCII lowering of a string, Python `str.lower` on the data seen here. -/
def lowerStr (s : String) : String :=
  String.mk (s.data.map Char.toLower)

/-- Python `x.lower()`: only strings have the method. -/
def pyLower : Json → Except PyErr String
  | Json.str s => Except.ok (lowerStr s)
  | _ => Except.error PyErr.attributeError

/-- Python iteration `for x in j`: lists yield elements, dicts their keys
in insertion order, strings their characters; other values raise. -/
def toIterable : Json → Except PyErr (List Json)
  | Json.arr xs => Except.ok xs
  | Json.obj kvs => Except.ok (kvs.map (fun kv => Json.str kv.1))
  | Json.str s => Except.ok (s.data.map (fun c => Json.str (String.mk [c])))
  | _ => Except.error PyErr.typeError

/-- Python `x[0]` as used on `PowerControl`: list head, first character of
a string, `KeyError` on a string-keyed dict, `TypeError` otherwise. -/
def pySubscriptZero : Json → Except PyErr Json
  | Json.arr (x :: _) => Except.ok x
  | Json.arr [] => Except.error PyErr.indexError
  | Json.str s =>
    match s.data with
    | c :: _ => Except.ok (Json.str (String.mk [c]))
    | [] => Except.error PyErr.indexError
  | Json.obj _ => Except.error PyErr.keyError
  | _ => Except.error PyErr.typeError

/-- Python `needle in hay` on strings. -/
def strContains (hay needle : String) : Bool :=
  hay.data.tails.any (fun t => needle.data.isPrefixOf t)

/-- Test a JSON value for equality with a literal string. -/
def isStrEq (j : Json) (s : String) : Bool :=
  match j with
  | Json.str t => t == s
  | _ => false

/-- A host directory of the snapshot: relative path components to the
parsed JSON document, or nothing when the file is missing, unreadable or
not valid JSON (`_read_json` and the exists-then-parse patterns collapse
those cases alike). -/
def HostDir : Type := List String → Option Json

/-- One recorded volume of the RAID report. -/
structure VolumeInfo where
  name : Json
  raid_type : Json
  capacity_bytes : Json
  capacity_gib : Option ℚ
  drives : List String

/-- One recorded storage controller of the RAID report. -/
structure ControllerInfo where
  name : Json
  model : Json
  supported_raid_types : Json

/-- The fields of the RAID result record mutated inside the storage loop. -/
structure RaidAcc where
  raid_detected : Bool
  raid_capable : Bool
  controllers : List ControllerInfo
  volumes : List VolumeInfo

/-- The per-host record of report_raid.py. -/
structure RaidResult where
  datacenter : String
  hostname : String
  raid_detected : Bool
  raid_capable : Bool
  message : String
  controllers : List ControllerInfo
  volumes : List VolumeInfo

/-- One iteration of the `StorageControllers` loop of report_raid.py:
record the controller, then mark the host RAID-capable when the supported
list is non-empty or the name or description contains "raid" (the
disjunction short-circuits, so `.lower()` can only raise on a branch that
is reached). -/
def raidCtrlStep (acc : RaidAcc) (ctrl : Json) : Except PyErr RaidAcc := do
  let supported := pyOr (safe_get ctrl [PyKey.str "SupportedRAIDTypes"] (Json.arr [])) (Json.arr [])
  let name := pyOr (safe_get ctrl [PyKey.str "Name"] Json.null)
    (pyOr (safe_get ctrl [PyKey.str "Model"] Json.null) (Json.str "Controller"))
  let model := safe_get ctrl [PyKey.str "Model"] Json.null
  let description := pyOr (safe_get ctrl [PyKey.str "Description"] Json.null) (Json.str "")
  let acc := { acc with controllers := acc.controllers ++ [⟨name, model, supported⟩] }
  let listCap : Bool := match supported with | Json.arr xs => !xs.isEmpty | _ => false
  if listCap then
    pure { acc with raid_capable := true }
  else do
    let nm ← pyLower name
    if strContains nm "raid" then
      pure { acc with raid_capable := true }
    else do
      let ds ← pyLower description
      if strContains ds "raid" then pure { acc with raid_capable := true }
      else pure acc

/-- One iteration of the volume-member loop of report_raid.py.  The
detail path is composed exactly as at report_raid.py line 157, with the
literal "Storage" component rather than the remembered storage directory
name. -/
def raidVolStep (hd : HostDir) (systemId storageId : String) (acc : RaidAcc)
    (vmem : Json) : Except PyErr RaidAcc := do
  let volRef := safe_get vmem [PyKey.str "@odata.id"] Json.null
  match ← lastSegmentJson volRef with
  | none => pure acc
  | some volId =>
    if volId = "" then pure acc
    else
      let vol := (hd ["Systems", systemId, "Storage", storageId, "Volumes", volId ++ ".json"]).getD Json.null
      if ¬ pyTruthy vol then pure acc
      else do
        let volName := safe_get vol [PyKey.str "Name"] Json.null
        let volRaid := safe_get vol [PyKey.str "RAIDType"] Json.null
        let volCapBytes := safe_get vol [PyKey.str "CapacityBytes"] Json.null
        let driveLinks := pyOr (safe_get vol [PyKey.str "Links", PyKey.str "Drives"] (Json.arr [])) (Json.arr [])
        let ds ← toIterable driveLinks
        let driveIds ← ds.foldlM (fun (ids : List String) d => do
          let dRef := safe_get d [PyKey.str "@odata.id"] Json.null
          match ← lastSegmentJson dRef with
          | some i => if i = "" then pure ids else pure (ids ++ [i])
          | none => pure ids) []
        pure { acc with
          volumes := acc.volumes ++ [⟨volName, volRaid, volCapBytes, bytesToGib volCapBytes, driveIds⟩],
          raid_detected := !volRaid.isNull }

/-- One iteration of the storage-member loop of report_raid.py: load the
storage detail under the remembered directory name, record controllers,
then walk the Volumes collection when referenced. -/
def raidStorageStep (hd : HostDir) (systemId storageDirName : String)
    (acc : RaidAcc) (member : Json) : Except PyErr RaidAcc := do
  let storageRef := safe_get member [PyKey.str "@odata.id"] Json.null
  match ← lastSegmentJson storageRef with
  | none => pure acc
  | some storageId =>
    if storageId = "" then pure acc
    else
      let storage := (hd ["Systems", systemId, storageDirName, storageId ++ ".json"]).getD Json.null
      if ¬ pyTruthy storage then pure acc
      else do
        let controllers := pyOr (safe_get storage [PyKey.str "StorageControllers"] (Json.arr [])) (Json.arr [])
        let cs ← toIterable controllers
        let acc ← cs.foldlM raidCtrlStep acc
        let volumesRef := safe_get storage [PyKey.str "Volumes", PyKey.str "@odata.id"] Json.null
        if ¬ pyTruthy volumesRef then pure acc
        else
          let volumesColl := (hd ["Systems", systemId, storageDirName, storageId, "Volumes.json"]).getD Json.null
          if ¬ pyTruthy volumesColl then pure acc
          else do
            let volMembers := pyOr (safe_get volumesColl [PyKey.str "Members"] (Json.arr [])) (Json.arr [])
            let vs ← toIterable volMembers
            vs.foldlM (raidVolStep hd systemId storageId) acc

/-- The final classification of report_raid.py lines 186 to 196. -/
def classifyMessage (detected capable : Bool) (volumes : List VolumeInfo) : String :=
  if detected then "Hardware RAID detected"
  else if capable then
    if !volumes.isEmpty then "RAID-capable controller with volumes in HBA mode"
    else "RAID supported but not configured"
  else "No hardware RAID detected (possible HBA or software RAID)"

/-- The tail of `get_raid_information` once the storage collection has
been chosen (the loaded collection document and the directory name that
succeeded): the final falsy check, the member check, the storage loop
and the classification. -/
def raidWithStorage (hd : HostDir) (hostname datacenter sysId : String)
    (storageColl : Json) (storageDirName : String) : Except PyErr RaidResult := do
  if ¬ pyTruthy storageColl then
    pure ⟨datacenter, hostname, false, false,
      "No storage info exposed via Redfish", [], []⟩
  else
    let storageMembers := pyOr (safe_get storageColl [PyKey.str "Members"] (Json.arr [])) (Json.arr [])
    if ¬ pyTruthy storageMembers then
      pure ⟨datacenter, hostname, false, false,
        "No storage info exposed via Redfish", [], []⟩
    else do
      let sms ← toIterable storageMembers
      let acc ← sms.foldlM (raidStorageStep hd sysId storageDirName) ⟨false, false, [], []⟩
      pure ⟨datacenter, hostname, acc.raid_detected, acc.raid_capable,
        classifyMessage acc.raid_detected acc.raid_capable acc.volumes,
        acc.controllers, acc.volumes⟩

/-- The function `get_raid_information` of report_raid.py: the early systems checks,
then the Storage collection with its pluralised Storages fallback,
remembering which directory name succeeded. -/
def get_raid_information (hd : HostDir) (hostname datacenter : String) :
    Except PyErr RaidResult := do
  let early := fun (msg : String) =>
    (⟨datacenter, hostname, false, false, msg, [], []⟩ : RaidResult)
  let systems := (hd ["Systems.json"]).getD Json.null
  if ¬ pyTruthy systems then pure (early "No systems info exposed via Redfish")
  else
    let members := pyOr (safe_get systems [PyKey.str "Members"] (Json.arr [])) (Json.arr [])
    if ¬ pyTruthy members then pure (early "No systems info exposed via Redfish")
    else do
      let firstRef := safe_get members [PyKey.int 0, PyKey.str "@odata.id"] Json.null
      match ← lastSegmentJson firstRef with
      | none => pure (early "No systems info exposed via Redfish")
      | some sysId =>
        if sysId = "" then pure (early "No systems info exposed via Redfish")
        else
          let sc1 := (hd ["Systems", sysId, "Storage.json"]).getD Json.null
          if pyTruthy sc1 then
            raidWithStorage hd hostname datacenter sysId sc1 "Storage"
          else
            raidWithStorage hd hostname datacenter sysId
              ((hd ["Systems", sysId, "Storages.json"]).getD Json.null) "Storages"

/-- Lexicographic code-point comparison of character lists, the order
Python uses to compare strings. -/
def pyCharListLe : List Char → List Char → Bool
  | [], _ => true
  | _ :: _, [] => false
  | a :: as, b :: bs => if a = b then pyCharListLe as bs else decide (a.toNat < b.toNat)

/-- Python string comparison, lexicographic by code point. -/
def pyStrLe (a b : String) : Bool :=
  pyCharListLe a.data b.data

/-- Python `sorted` on strings: ascending lexicographic code-point
order, written with the executable comparator. -/
def sortStrings (l : List String) : List String :=
  List.insertionSort (fun a b => pyStrLe a b = true) l

/-- The fields of the power result record mutated inside the chassis loop. -/
structure PowerAcc where
  power_states : List String
  found : Bool
  PowerConsumedWatts : Json
  MinConsumedWatts : Json
  MaxConsumedWatts : Json
  AverageConsumedWatts : Json

/-- The per-host record of report_power.py and script.py. -/
structure PowerResult where
  datacenter : String
  hostname : String
  redfish_version : Json
  power_states : List String
  PowerConsumedWatts : Json
  MinConsumedWatts : Json
  MaxConsumedWatts : Json
  AverageConsumedWatts : Json

/-- The Power.json block of the power reports: when the file loads, read
`PowerControl`; when that is truthy with positive length, take element 0
and capture the four watt fields, setting the found flag.  A decode or
I/O failure of the file is swallowed by the enclosing except; a
non-dict document raises `AttributeError` past it. -/
def powerMetricsBlock (hd : HostDir) (chassisId : String) (acc : PowerAcc) :
    Except PyErr PowerAcc := do
  match hd ["Chassis", chassisId, "Power.json"] with
  | none => pure acc
  | some powerData => do
    let powerControl ← pyGet powerData "PowerControl" (Json.arr [])
    if ¬ pyTruthy powerControl then pure acc
    else do
      let n ← pyLen powerControl
      if n = 0 then pure acc
      else do
        let pc ← pySubscriptZero powerControl
        pure { acc with
          PowerConsumedWatts := safe_get pc [PyKey.str "PowerConsumedWatts"] (Json.str "NA"),
          MinConsumedWatts := safe_get pc [PyKey.str "PowerMetrics", PyKey.str "MinConsumedWatts"] (Json.str "NA"),
          MaxConsumedWatts := safe_get pc [PyKey.str "PowerMetrics", PyKey.str "MaxConsumedWatts"] (Json.str "NA"),
          AverageConsumedWatts := safe_get pc [PyKey.str "PowerMetrics", PyKey.str "AverageConsumedWatts"] (Json.str "NA"),
          found := true }

/-- The capture attempt at the end of a power-walk member: only while
no metrics have been captured, and only for a truthy dict Power
reference, try the Power.json block. -/
def powerCapture (hd : HostDir) (chassisId : String) (detail : Json)
    (acc : PowerAcc) : Except PyErr PowerAcc := do
  if acc.found then pure acc
  else do
    let powerRef ← pyGet detail "Power" Json.null
    let isDict : Bool := match powerRef with | Json.obj _ => true | _ => false
    if pyTruthy powerRef && isDict then powerMetricsBlock hd chassisId acc
    else pure acc

/-- One iteration of the chassis-member loop of the power reports:
resolve the member identifier, load the detail, accumulate the lowered
power state, and, while no metrics have been captured, try the Power
sub-resource. -/
def powerStep (hd : HostDir) (acc : PowerAcc) (member : Json) :
    Except PyErr PowerAcc := do
  let ref ← pyGet member "@odata.id" Json.null
  match ← lastSegmentJson ref with
  | none => pure acc
  | some chassisId =>
    if chassisId = "" then pure acc
    else
      match hd ["Chassis", chassisId ++ ".json"] with
      | none => pure acc
      | some detail => do
        let powerState := safe_get detail [PyKey.str "PowerState"] (Json.str "NA")
        let acc ← (if isStrEq powerState "NA" then pure acc
          else do
            let l ← pyLower powerState
            pure { acc with power_states := acc.power_states ++ [l] })
        powerCapture hd chassisId detail acc

/-- The function `get_power_metrics` of report_power.py; script.py's copy differs only
in its `safe_get` variant, and the two variants agree at every call site
of this function, so one embedding serves both files.  The collected
power states are sorted before being stored. -/
def get_power_metrics (hd : HostDir) (hostname datacenter : String) :
    Except PyErr PowerResult := do
  let ver := match hd ["index.json"] with
    | some idx => safe_get idx [PyKey.str "RedfishVersion"] (Json.str "NA")
    | none => Json.str "NA"
  let na := Json.str "NA"
  match hd ["Chassis.json"] with
  | none => pure ⟨datacenter, hostname, ver, [], na, na, na, na⟩
  | some chassisData => do
    let members ← pyGet chassisData "Members" (Json.arr [])
    if ¬ pyTruthy members then pure ⟨datacenter, hostname, ver, [], na, na, na, na⟩
    else do
      let ms ← toIterable members
      let acc ← ms.foldlM (powerStep hd) ⟨[], false, na, na, na, na⟩
      pure ⟨datacenter, hostname, ver, sortStrings acc.power_states,
        acc.PowerConsumedWatts, acc.MinConsumedWatts,
        acc.MaxConsumedWatts, acc.AverageConsumedWatts⟩

/-- One recorded fan of the fan report. -/
structure FanInfo where
  name : Json
  reading_rpm : Json

/-- The fields of the fan result record mutated inside the chassis loop. -/
structure FanAcc where
  power_states : List String
  fans : List FanInfo

/-- The per-host record of report_fans.py. -/
structure FanResult where
  datacenter : String
  hostname : String
  power_states : List String
  fans : List FanInfo

/-- The Thermal tail of a fan-walk member: when the detail references a
truthy dict Thermal, read its Fans entries into the accumulator. -/
def fanThermal (hd : HostDir) (chassisId : String) (detail : Json)
    (acc : FanAcc) : Except PyErr FanAcc := do
  let thermalRef ← pyGet detail "Thermal" Json.null
  let isDict : Bool := match thermalRef with | Json.obj _ => true | _ => false
  if pyTruthy thermalRef && isDict then
    match hd ["Chassis", chassisId, "Thermal.json"] with
    | none => pure acc
    | some thermalData => do
      let fansArr ← pyGet thermalData "Fans" (Json.arr [])
      let fs ← toIterable fansArr
      pure { acc with fans := acc.fans ++ fs.map (fun fan =>
        ⟨safe_get fan [PyKey.str "Name"] (Json.str "NA"),
         safe_get fan [PyKey.str "Reading"] (Json.str "NA")⟩) }
  else pure acc

/-- One iteration of the chassis-member loop of report_fans.py: a member
whose detail file is missing or unparsable is skipped entirely;
otherwise the power state is accumulated and the Thermal sub-resource,
when referenced by a truthy dict, contributes its `Fans` entries. -/
def fanStep (hd : HostDir) (acc : FanAcc) (member : Json) :
    Except PyErr FanAcc := do
  let ref ← pyGet member "@odata.id" Json.null
  match ← lastSegmentJson ref with
  | none => pure acc
  | some chassisId =>
    if chassisId = "" then pure acc
    else
      match hd ["Chassis", chassisId ++ ".json"] with
      | none => pure acc
      | some detail => do
        let powerState := safe_get detail [PyKey.str "PowerState"] (Json.str "NA")
        let acc ← (if isStrEq powerState "NA" then pure acc
          else do
            let l ← pyLower powerState
            pure { acc with power_states := acc.power_states ++ [l] })
        fanThermal hd chassisId detail acc

/-- The function `get_fan_metrics` of report_fans.py. -/
def get_fan_metrics (hd : HostDir) (hostname datacenter : String) :
    Except PyErr FanResult := do
  match hd ["Chassis.json"] with
  | none => pure ⟨datacenter, hostname, [], []⟩
  | some chassisData => do
    let members ← pyGet chassisData "Members" (Json.arr [])
    if ¬ pyTruthy members then pure ⟨datacenter, hostname, [], []⟩
    else do
      let ms ← toIterable members
      let acc ← ms.foldlM (fanStep hd) ⟨[], []⟩
      pure ⟨datacenter, hostname, acc.power_states, acc.fans⟩

/-- One recorded temperature sensor of the temperature report. -/
structure TempInfo where
  chassis_id : String
  name : Json
  reading : Json
  physical_context : Json

/-- The fields of the temperature result mutated inside the chassis loop. -/
structure TempAcc where
  power_states : List String
  temperatures : List TempInfo

/-- The per-host record of report_temperature.py. -/
structure TempResult where
  datacenter : String
  hostname : String
  power_states : List String
  temperatures : List TempInfo
  message : String

/-- One iteration of the chassis-member loop of report_temperature.py.
Unlike the fan walk, a member whose detail is unavailable is not
skipped: only the power-state read is guarded by the detail being
truthy, and Thermal.json is attempted for every resolved member. -/
def tempStep (hd : HostDir) (acc : TempAcc) (member : Json) :
    Except PyErr TempAcc := do
  let ref := safe_get member [PyKey.str "@odata.id"] Json.null
  match ← lastSegmentJson ref with
  | none => pure acc
  | some chassisId =>
    if chassisId = "" then pure acc
    else do
      let detail := (hd ["Chassis", chassisId ++ ".json"]).getD Json.null
      let acc ← (if pyTruthy detail then
          (let ps := safe_get detail [PyKey.str "PowerState"] (Json.str "NA")
           if isStrEq ps "NA" then pure acc
           else do
             let l ← pyLower ps
             pure { acc with power_states := acc.power_states ++ [l] })
        else pure acc)
      let thermal := (hd ["Chassis", chassisId, "Thermal.json"]).getD Json.null
      if ¬ pyTruthy thermal then pure acc
      else do
        let temps := pyOr (safe_get thermal [PyKey.str "Temperatures"] (Json.arr [])) (Json.arr [])
        let ts ← toIterable temps
        pure { acc with temperatures := acc.temperatures ++ ts.map (fun t =>
          ⟨chassisId,
           safe_get t [PyKey.str "Name"] (Json.str "-"),
           safe_get t [PyKey.str "ReadingCelsius"] (Json.str "NA"),
           safe_get t [PyKey.str "PhysicalContext"] (Json.str "-")⟩) }

/-- The function `get_temperature_information` of report_temperature.py. -/
def get_temperature_information (hd : HostDir) (hostname datacenter : String) :
    Except PyErr TempResult := do
  let chassisData := (hd ["Chassis.json"]).getD Json.null
  if ¬ pyTruthy chassisData then
    pure ⟨datacenter, hostname, [], [], "No chassis info exposed via Redfish"⟩
  else
    let members := pyOr (safe_get chassisData [PyKey.str "Members"] (Json.arr [])) (Json.arr [])
    if ¬ pyTruthy members then
      pure ⟨datacenter, hostname, [], [], "No chassis members exposed via Redfish"⟩
    else do
      let ms ← toIterable members
      let acc ← ms.foldlM (tempStep hd) ⟨[], []⟩
      let msg := if !acc.temperatures.isEmpty then
          "Found " ++ toString acc.temperatures.length ++ " temperature sensor(s)"
        else "No temperature sensors found"
      pure ⟨datacenter, hostname, acc.power_states, acc.temperatures, msg⟩

/-- The power states a chassis member list contributes, in member order:
the common accumulation shared by the power, fan and temperature walks,
written in the permissive form of the temperature walk (its conditions
and the others' coincide whenever the walks complete without raising).
Reference definition used to compare the reports' state sequences;
`collectHead` is the contribution of one member. -/
def collectHead (hd : HostDir) (m : Json) : Except PyErr (List String) := do
  let ref := safe_get m [PyKey.str "@odata.id"] Json.null
  match ← lastSegmentJson ref with
  | none => pure []
  | some chassisId =>
    if chassisId = "" then pure ([] : List String)
    else
      let detail := (hd ["Chassis", chassisId ++ ".json"]).getD Json.null
      if ¬ pyTruthy detail then pure []
      else
        let ps := safe_get detail [PyKey.str "PowerState"] (Json.str "NA")
        if isStrEq ps "NA" then pure []
        else do
          let l ← pyLower ps
          pure [l]

/-- The power states of a whole member list, member contributions in
member order. -/
def collectPowerStates (hd : HostDir) : List Json → Except PyErr (List String)
  | [] => Except.ok []
  | m :: ms => do
    let head ← collectHead hd m
    let rest ← collectPowerStates hd ms
    pure (head ++ rest)

/-- Exact decimal rendering of a rational: integers as "n.0", exact
hundredths with one or two fractional digits, anything else as a
fraction.  Numeric rendering of Python floats is idealised to the exact
rational value; the capacities produced by `pyRound2` are always exact
hundredths, so they render as Python does. -/
def qRepr (q : ℚ) : String :=
  let sign := if q < 0 then "-" else ""
  let a := |q|
  if a.den = 1 then sign ++ toString a.num ++ ".0"
  else if (a * 100).den = 1 then
    let t := (a * 100).num
    let ip := t / 100
    let cents := t % 100
    let frac := if cents % 10 = 0 then toString (cents / 10)
      else if cents < 10 then "0" ++ toString cents
      else toString cents
    sign ++ toString ip ++ "." ++ frac
  else sign ++ toString a.num ++ "/" ++ toString a.den

mutual

/-- Python `repr` of a decoded JSON value (mutually with its list and
object bodies). -/
def pyRepr : Json → String
  | Json.null => "None"
  | Json.bool true => "True"
  | Json.bool false => "False"
  | Json.int n => toString n
  | Json.num q => qRepr q
  | Json.str s => "\x27" ++ s ++ "\x27"
  | Json.arr xs => "[" ++ pyReprArr xs ++ "]"
  | Json.obj kvs => "\x7b" ++ pyReprObj kvs ++ "\x7d"

def pyReprArr : List Json → String
  | [] => ""
  | [x] => pyRepr x
  | x :: xs => pyRepr x ++ ", " ++ pyReprArr xs

def pyReprObj : List (String × Json) → String
  | [] => ""
  | [kv] => "\x27" ++ kv.1 ++ "\x27: " ++ pyRepr kv.2
  | kv :: kvs => "\x27" ++ kv.1 ++ "\x27: " ++ pyRepr kv.2 ++ ", " ++ pyReprObj kvs

end

/-- Python `str` of a decoded JSON value, as interpolated by f-strings:
strings verbatim, everything else via `repr`. -/
def pyStr : Json → String
  | Json.str s => s
  | j => pyRepr j

/-- Python `str` of a boolean. -/
def pyBoolStr (b : Bool) : String :=
  if b then "True" else "False"

/-- Python `sep.join(x)`: iterate `x` and require every element to be a
string. -/
def pyJoin (sep : String) (j : Json) : Except PyErr String := do
  let elems ← toIterable j
  let strs ← elems.mapM (fun e =>
    match e with
    | Json.str s => Except.ok s
    | _ => Except.error PyErr.typeError)
  pure (String.intercalate sep strs)

/-- The display lines of one host of report_raid.py's main: the summary
line, then a controller line per recorded controller and a volume line
per recorded volume. -/
def raidHostLines (r : RaidResult) : Except PyErr (List String) := do
  let head := r.datacenter ++ "/" ++ r.hostname ++ ": raid_detected=" ++
    pyBoolStr r.raid_detected ++ ", raid_capable=" ++ pyBoolStr r.raid_capable ++
    " --> " ++ r.message
  let ctrlLines ← r.controllers.mapM (fun c => do
    let supJ := pyOr c.supported_raid_types (Json.arr [])
    let supStr ← if pyTruthy supJ then pyJoin ", " supJ else pure "-"
    pure ("  controller: " ++
      pyStr (pyOr c.name (pyOr c.model (Json.str "Controller"))) ++
      " | supported: " ++ supStr))
  let volLines := r.volumes.map (fun v =>
    let cap := match v.capacity_gib with
      | some g => qRepr g ++ " GiB"
      | none => "NA"
    let drives := if !v.drives.isEmpty then String.intercalate ", " v.drives else "-"
    "  volume: " ++ pyStr (pyOr v.name (Json.str "-")) ++ " | raid=" ++
      pyStr v.raid_type ++ " | capacity=" ++ cap ++ " | drives=[" ++ drives ++ "]")
  pure ([head] ++ ctrlLines ++ volLines)

/-- The display line of one host of the power reports' main. -/
def powerHostLine (r : PowerResult) : String :=
  let states := if !r.power_states.isEmpty then String.intercalate ", " r.power_states else "NA"
  "[" ++ pyStr r.redfish_version ++ "] [" ++ states ++ "] " ++
    r.datacenter ++ "/" ++ r.hostname ++
    ": PowerConsumedWatts=" ++ pyStr r.PowerConsumedWatts ++
    ", MinConsumedWatts=" ++ pyStr r.MinConsumedWatts ++
    ", MaxConsumedWatts=" ++ pyStr r.MaxConsumedWatts ++
    ", AverageConsumedWatts=" ++ pyStr r.AverageConsumedWatts

/-- A snapshot: datacenter directories in filesystem enumeration order,
host directories per datacenter (sorted before the walk, as the scripts
do), and the parsed document for each datacenter, host and relative
path. -/
structure Snapshot where
  datacenters : List String
  hosts : String → List String
  file : String → String → List String → Option Json

/-- The datacenter and host pairs a scan visits, in output order. -/
def scanOrder (s : Snapshot) : List (String × String) :=
  (s.datacenters.map (fun d => (sortStrings (s.hosts d)).map (fun h => (d, h)))).flatten

/-- The function `main` of report_raid.py: walk every host, then print every record,
the whole standard output as one string. -/
def raidMain (s : Snapshot) : Except PyErr String := do
  let results ← (scanOrder s).mapM (fun dh =>
    get_raid_information (s.file dh.1 dh.2) dh.2 dh.1)
  let lineLists ← results.mapM raidHostLines
  pure (String.join (lineLists.flatten.map (fun l => l ++ "\n")))

/-- The function `main` of report_power.py and script.py: walk every host, then print
one line per record. -/
def powerMain (s : Snapshot) : Except PyErr String := do
  let results ← (scanOrder s).mapM (fun dh =>
    get_power_metrics (s.file dh.1 dh.2) dh.2 dh.1)
  pure (String.join (results.map (fun r => powerHostLine r ++ "\n")))

/-- A collection member reference object, the shape every `Members`
entry of the snapshots used below has. -/
def mref (p : String) : Json :=
  Json.obj [("@odata.id", Json.str p)]

/-- C8: volume capacity is converted from raw bytes to gibibytes by
exact division by 1024 cubed and rounding to two decimals;
10737418240 bytes give 10.0 GiB, 0 bytes give 0.0 GiB, and any
non-integer input, the null of an absent `CapacityBytes` included,
yields the unavailable sentinel `none`, never a numeric default. -/
theorem c8_bytes_to_gib :
    bytesToGib (Json.int 10737418240) = some 10 ∧
    bytesToGib (Json.int 0) = some 0 ∧
    bytesToGib Json.null = none ∧
    (∀ n : Int, bytesToGib (Json.int n) = some (pyRound2 ((n : ℚ) / 1073741824))) ∧
    (∀ j : Json, (∀ n : Int, j ≠ Json.int n) → (∀ b : Bool, j ≠ Json.bool b) →
      bytesToGib j = none) := by
  refine ⟨by norm_num [bytesToGib, pyRound2, roundHalfEven],
    by norm_num [bytesToGib, pyRound2, roundHalfEven],
    rfl, fun n => by norm_num [bytesToGib], fun j hn hb => ?_⟩
  cases j with
  | int n => exact absurd rfl (hn n)
  | bool b => exact absurd rfl (hb b)
  | null => rfl
  | num _ => rfl
  | str _ => rfl
  | arr _ => rfl
  | obj _ => rfl

/-- Witness for C8 at concrete inputs: a string capacity value is not an
integer and converts to the sentinel. -/
theorem c8_witness : bytesToGib (Json.str "10") = none :=
  c8_bytes_to_gib.2.2.2.2 (Json.str "10")
    (fun _ h => Json.noConfusion h) (fun _ h => Json.noConfusion h)

/-- Taking while a predicate holds everywhere keeps the whole list. -/
theorem takeWhile_all {a} (p : a → Bool) (xs : List a)
    (h : ∀ x ∈ xs, p x = true) : xs.takeWhile p = xs := by
  induction xs with
  | nil => rfl
  | cons x t ih =>
    rw [List.takeWhile_cons, if_pos (h x (List.mem_cons_self x t))]
    rw [ih (fun y hy => h y (List.mem_cons_of_mem x hy))]

/-- Appending after an all-true block distributes under takeWhile. -/
theorem takeWhile_append_all {a} (p : a → Bool) (xs ys : List a)
    (h : ∀ x ∈ xs, p x = true) :
    (xs ++ ys).takeWhile p = xs ++ ys.takeWhile p := by
  induction xs with
  | nil => rfl
  | cons x t ih =>
    rw [List.cons_append, List.takeWhile_cons,
      if_pos (h x (List.mem_cons_self x t))]
    rw [ih (fun y hy => h y (List.mem_cons_of_mem x hy)), List.cons_append]

/-- Once the first block already contains a failure, takeWhile never
reaches the appended part. -/
theorem takeWhile_append_stop {a} (p : a → Bool) (xs ys : List a)
    (h : ∃ x ∈ xs, p x = false) :
    (xs ++ ys).takeWhile p = xs.takeWhile p := by
  induction xs with
  | nil => obtain ⟨x, hx, _⟩ := h; exact absurd hx (List.not_mem_nil x)
  | cons x t ih =>
    by_cases hpx : p x = true
    · obtain ⟨y, hy, hpy⟩ := h
      rcases List.mem_cons.mp hy with rfl | hyt
      · rw [hpx] at hpy; exact Bool.noConfusion hpy
      · rw [List.cons_append, List.takeWhile_cons, List.takeWhile_cons]
        rw [ih ⟨y, hyt, hpy⟩]
    · rw [List.cons_append, List.takeWhile_cons, List.takeWhile_cons,
        if_neg hpx, if_neg hpx]

/-- A singleton failing the predicate never survives takeWhile, wherever
the first block stops. -/
theorem takeWhile_append_singleton_neg {a} (p : a → Bool) (x : a)
    (hx : p x = false) (xs : List a) :
    (xs ++ [x]).takeWhile p = xs.takeWhile p := by
  induction xs with
  | nil => simp [List.takeWhile_cons, hx]
  | cons y t ih =>
    by_cases hpy : p y = true
    · rw [List.cons_append, List.takeWhile_cons, List.takeWhile_cons, ih]
    · rw [List.cons_append, List.takeWhile_cons, List.takeWhile_cons,
        if_neg hpy, if_neg hpy]

/-- The head a dropWhile stops at fails the predicate. -/
theorem dropWhile_head_false {a} (p : a → Bool) (l : List a) :
    ∀ y (t : List a), l.dropWhile p = y :: t → p y = false := by
  induction l with
  | nil => intro y t h; exact List.noConfusion h
  | cons x xs ih =>
    intro y t h
    by_cases hx : p x = true
    · exact ih y t (by rwa [List.dropWhile_cons, if_pos hx] at h)
    · rw [List.dropWhile_cons, if_neg hx] at h
      injection h with h1 _
      subst h1
      exact Bool.eq_false_iff.mpr hx

/-- Unfolding the split at a slash. -/
theorem pySplitSlash_cons_slash (rest : List Char) :
    pySplitSlash ('/' :: rest) = [] :: pySplitSlash rest := by
  simp [pySplitSlash]

/-- Unfolding the split at a non-slash character. -/
theorem pySplitSlash_cons_ne (c : Char) (rest : List Char) (hc : c ≠ '/')
    (q : List Char) (qs : List (List Char)) (hr : pySplitSlash rest = q :: qs) :
    pySplitSlash (c :: rest) = (c :: q) :: qs := by
  simp [pySplitSlash, hc, hr]

/-- Python split on slash never produces an empty piece list. -/
theorem pySplitSlash_ne_nil : ∀ l : List Char, pySplitSlash l ≠ [] := by
  intro l
  induction l with
  | nil => simp [pySplitSlash]
  | cons c rest _ =>
    simp only [pySplitSlash]
    split
    · simp
    · split <;> simp

/-- The split has a single piece exactly when the input has no slash. -/
theorem pySplitSlash_length_one_iff :
    ∀ l : List Char, (pySplitSlash l).length = 1 ↔ '/' ∉ l := by
  intro l
  induction l with
  | nil => simp [pySplitSlash]
  | cons c rest ih =>
    by_cases hc : c = '/'
    · subst hc
      rw [pySplitSlash_cons_slash, List.length_cons]
      constructor
      · intro h
        have h0 : (pySplitSlash rest).length = 0 := by omega
        exact absurd (List.length_eq_zero.mp h0) (pySplitSlash_ne_nil rest)
      · intro h
        exact absurd (List.mem_cons_self '/' rest) h
    · cases hr : pySplitSlash rest with
      | nil => exact absurd hr (pySplitSlash_ne_nil rest)
      | cons q qs =>
        rw [pySplitSlash_cons_ne c rest hc q qs hr]
        rw [hr] at ih
        simp only [List.length_cons] at ih ⊢
        rw [List.mem_cons]
        constructor
        · intro h h2
          rcases h2 with h2 | h2
          · exact hc h2.symm
          · exact (ih.mp h) h2
        · intro h
          exact ih.mpr (fun h2 => h (Or.inr h2))

/-- The last piece of the split is the trailing run of non-slash
characters. -/
theorem pySplitSlash_getLast :
    ∀ l : List Char,
      (pySplitSlash l).getLast? =
        some ((l.reverse.takeWhile (fun c => c ≠ '/')).reverse) := by
  intro l
  induction l with
  | nil => simp [pySplitSlash]
  | cons c rest ih =>
    by_cases hc : c = '/'
    · subst hc
      rw [pySplitSlash_cons_slash]
      cases hr : pySplitSlash rest with
      | nil => exact absurd hr (pySplitSlash_ne_nil rest)
      | cons q qs =>
        rw [hr] at ih
        rw [List.getLast?_cons_cons, ih, List.reverse_cons]
        rw [takeWhile_append_singleton_neg _ '/' (by simp) rest.reverse]
    · cases hr : pySplitSlash rest with
      | nil => exact absurd hr (pySplitSlash_ne_nil rest)
      | cons q qs =>
        rw [pySplitSlash_cons_ne c rest hc q qs hr]
        rw [hr] at ih
        cases qs with
        | nil =>
          have hnos : '/' ∉ rest :=
            (pySplitSlash_length_one_iff rest).mp (by rw [hr]; rfl)
          have hall : ∀ x ∈ rest.reverse, (fun d => decide (d ≠ '/')) x = true := by
            intro x hx
            simp only [decide_eq_true_eq]
            intro hxe
            subst hxe
            exact hnos (List.mem_reverse.mp hx)
          have hq : q = rest := by
            rw [List.getLast?_singleton] at ih
            have h1 := Option.some.inj ih
            rwa [takeWhile_all _ rest.reverse hall, List.reverse_reverse] at h1
          rw [List.getLast?_singleton, hq, List.reverse_cons]
          rw [takeWhile_append_all _ rest.reverse [c] hall]
          have hpc : (fun d => decide (d ≠ '/')) c = true := by simp [hc]
          rw [List.takeWhile_cons, if_pos hpc, List.takeWhile_nil]
          rw [List.reverse_append, List.reverse_cons, List.reverse_nil,
            List.nil_append, List.reverse_reverse]
          rfl
        | cons r rs =>
          have hlen : (pySplitSlash rest).length ≠ 1 := by rw [hr]; simp
          have hs : '/' ∈ rest := by
            by_contra hns
            exact hlen ((pySplitSlash_length_one_iff rest).mpr hns)
          rw [List.getLast?_cons_cons]
          rw [List.getLast?_cons_cons] at ih
          rw [ih, List.reverse_cons]
          rw [takeWhile_append_stop _ rest.reverse [c]
            ⟨'/', List.mem_reverse.mpr hs, by simp⟩]


/-- C7 counterexample: on the all-slash reference "/" the extraction
returns the empty string, not nothing as the claim states. -/
theorem c7_counterexample :
    lastSegment (some "/") = some "" ∧ lastSegment (some "/") ≠ none := by
  refine ⟨rfl, ?_⟩
  intro h
  rw [show lastSegment (some "/") = some "" from rfl] at h
  exact Option.noConfusion h

/-- C7 amended: extraction returns nothing exactly for an absent or
empty reference string; for any other string it returns the trailing
run of non-slash characters of the string with trailing slashes
stripped (the final path segment), which is non-empty whenever the
stripped string is non-empty; a string of slashes only yields the empty
string, which every caller discards like an absent identifier;
"/redfish/v1/Chassis/7/" yields "7". -/
theorem c7_last_segment :
    (∀ s : String, s ≠ "" → lastSegment (some s) = some (finalSegmentRun s)) ∧
    (∀ s : String, pyRstripSlash s ≠ "" → finalSegmentRun s ≠ "") ∧
    lastSegment none = none ∧
    lastSegment (some "") = none ∧
    lastSegment (some "/redfish/v1/Chassis/7/") = some "7" ∧
    lastSegment (some "/") = some "" := by
  refine ⟨?_, ?_, rfl, rfl, rfl, rfl⟩
  · intro s hs
    rw [lastSegment, if_neg hs, pySplitSlash_getLast]
    rfl
  · intro s h
    rw [finalSegmentRun]
    rw [pyRstripSlash] at h ⊢
    cases hm : (s.data.reverse.dropWhile (fun c => c = '/')) with
    | nil => rw [hm] at h; exact absurd rfl h
    | cons y t =>
      have hy : (fun c => decide (c = '/')) y = false :=
        dropWhile_head_false _ s.data.reverse y t hm
      have hy2 : (fun d => decide (d ≠ '/')) y = true := by
        simp only [decide_eq_true_eq]
        intro he
        rw [he] at hy
        simp at hy
      show String.mk ((List.takeWhile (fun d => decide (d ≠ '/'))
        ((y :: t).reverse).reverse).reverse) ≠ ""
      rw [List.reverse_reverse, List.takeWhile_cons, if_pos hy2]
      intro hcon
      have := congrArg String.data hcon
      simp at this

/-- Witness for C7 at a concrete reference string. -/
theorem c7_witness :
    lastSegment (some "/a/b") = some (finalSegmentRun "/a/b") ∧
    finalSegmentRun "/a/b" ≠ "" :=
  ⟨c7_last_segment.1 "/a/b" (by decide),
   c7_last_segment.2.1 "/a/b" (by decide)⟩

/-- The boolean null test decides equality with null. -/
theorem Json.isNull_iff {j : Json} : j.isNull = true ↔ j = Json.null := by
  cases j <;> simp [Json.isNull]

/-- A non-null value fails the boolean null test. -/
theorem Json.isNull_eq_false {j : Json} (h : j ≠ Json.null) : j.isNull = false := by
  cases hb : j.isNull
  · rfl
  · exact absurd (Json.isNull_iff.mp hb) h

/-- Navigation cannot proceed from null to a non-null result. -/
theorem specNavigatePath_null {ks : List PyKey} {v : Json}
    (hs : specNavigatePath Json.null ks = some v) (hv : v ≠ Json.null) : False := by
  cases ks with
  | nil =>
    simp only [specNavigatePath, Option.some.injEq] at hs
    exact hv hs.symm
  | cons k ks => simp [specNavigatePath] at hs

/-- The common `safe_get` returns exactly the nested value addressed by
a key sequence whose navigation succeeds with a non-null result,
whatever the default. -/
theorem safe_get_spec_exact :
    ∀ (keys : List PyKey) (data d v : Json),
      specNavigatePath data keys = some v → v ≠ Json.null →
      safe_get data keys d = v := by
  intro keys
  induction keys with
  | nil =>
    intro data d v hs _
    simp only [specNavigatePath, Option.some.injEq] at hs
    subst hs
    rfl
  | cons k ks ih =>
    intro data d v hs hv
    cases data with
    | obj kvs =>
      cases k with
      | str s =>
        simp only [specNavigatePath] at hs
        cases hl : lookupObj kvs s with
        | none => rw [hl] at hs; exact Option.noConfusion hs
        | some w =>
          rw [hl, Option.some_bind] at hs
          have hw : w ≠ Json.null := by
            intro he
            subst he
            exact specNavigatePath_null hs hv
          simp only [safe_get, hl, Option.getD_some, Json.isNull_eq_false hw,
            Bool.false_eq_true, if_false]
          exact ih w d v hs hv
      | int i => simp [specNavigatePath] at hs
    | arr xs =>
      cases k with
      | int i =>
        simp only [specNavigatePath] at hs
        split at hs
        case isTrue h =>
          have hw : xs.get ⟨i.toNat, h.2⟩ ≠ Json.null := by
            intro he
            rw [he] at hs
            exact specNavigatePath_null hs hv
          simp only [safe_get, dif_pos h, Json.isNull_eq_false hw,
            Bool.false_eq_true, if_false]
          exact ih _ d v hs hv
        case isFalse => exact Option.noConfusion hs
      | str s => simp [specNavigatePath] at hs
    | null => simp [specNavigatePath] at hs
    | bool b => simp [specNavigatePath] at hs
    | int n => simp [specNavigatePath] at hs
    | num q => simp [specNavigatePath] at hs
    | str t => simp [specNavigatePath] at hs

/-- With a null default, the common `safe_get` collapses every failed or
null-valued navigation to null. -/
theorem safe_get_null_default :
    ∀ (keys : List PyKey) (data : Json),
      (specNavigatePath data keys = none ∨
        specNavigatePath data keys = some Json.null) →
      safe_get data keys Json.null = Json.null := by
  intro keys
  induction keys with
  | nil =>
    intro data hs
    rcases hs with hs | hs
    · simp [specNavigatePath] at hs
    · simp only [specNavigatePath, Option.some.injEq] at hs
      subst hs
      rfl
  | cons k ks ih =>
    intro data hs
    cases data with
    | obj kvs =>
      cases k with
      | str s =>
        cases hl : lookupObj kvs s with
        | none => simp [safe_get, hl, Json.isNull]
        | some w =>
          simp only [specNavigatePath, hl, Option.some_bind] at hs
          by_cases hw : w = Json.null
          · subst hw
            simp [safe_get, hl, Json.isNull]
          · simp only [safe_get, hl, Option.getD_some, Json.isNull_eq_false hw,
              Bool.false_eq_true, if_false]
            exact ih w hs
      | int i => simp [safe_get, Json.isNull]
    | arr xs =>
      cases k with
      | int i =>
        simp only [specNavigatePath] at hs
        by_cases h : 0 ≤ i ∧ i.toNat < xs.length
        · rw [dif_pos h] at hs
          by_cases hw : xs.get ⟨i.toNat, h.2⟩ = Json.null
          · simp only [safe_get, dif_pos h]
            rw [hw]
            simp [Json.isNull]
          · simp only [safe_get, dif_pos h, Json.isNull_eq_false hw,
              Bool.false_eq_true, if_false]
            exact ih _ hs
        · simp only [safe_get, dif_neg h]
      | str s => simp [safe_get]
    | null => simp [safe_get]
    | bool b => simp [safe_get]
    | int n => simp [safe_get]
    | num q => simp [safe_get]
    | str t => simp [safe_get]

/-- script.py's `safe_get` never raises when every integer index is
non-negative. -/
theorem safe_get_script_total :
    ∀ (keys : List PyKey) (data d : Json),
      (∀ i : Int, PyKey.int i ∈ keys → 0 ≤ i) →
      ∃ v, safe_get_script data keys d = Except.ok v := by
  intro keys
  induction keys with
  | nil => intro data d _; exact ⟨_, rfl⟩
  | cons k ks ih =>
    intro data d hnn
    have hks : ∀ i : Int, PyKey.int i ∈ ks → 0 ≤ i :=
      fun i hi => hnn i (List.mem_cons_of_mem k hi)
    cases data with
    | obj kvs =>
      cases k with
      | str s =>
        cases hl : lookupObj kvs s with
        | none => exact ⟨d, by simp [safe_get_script, hl]⟩
        | some w =>
          by_cases hw : w.isNull = true
          · exact ⟨d, by simp [safe_get_script, hl, hw]⟩
          · obtain ⟨v, hv⟩ := ih w d hks
            exact ⟨v, by simp only [safe_get_script, hl,
              Bool.not_eq_true] at *; simp [hw, hv]⟩
      | int i => exact ⟨d, rfl⟩
    | arr xs =>
      by_cases he : xs.isEmpty = true
      · exact ⟨d, by simp [safe_get_script, he]⟩
      · cases k with
        | str s => exact ⟨d, by simp [safe_get_script, he]⟩
        | int i =>
          have h0 : 0 ≤ i := hnn i (List.mem_cons_self _ _)
          by_cases hlt : i < (xs.length : Int)
          · have hj : ¬ i < 0 := by omega
            have hcond : 0 ≤ i ∧ i.toNat < xs.length := ⟨h0, by omega⟩
            obtain ⟨v, hv⟩ := ih (xs.get ⟨i.toNat, hcond.2⟩) d hks
            refine ⟨v, ?_⟩
            simp only [safe_get_script, he, Bool.false_eq_true, if_false,
              if_pos hlt, if_neg hj]
            rw [dif_pos hcond]
            exact hv
          · exact ⟨d, by simp only [safe_get_script, he, Bool.false_eq_true,
              if_false, if_neg hlt]⟩
    | null => exact ⟨_, rfl⟩
    | bool b => exact ⟨_, rfl⟩
    | int n => exact ⟨_, rfl⟩
    | num q => exact ⟨_, rfl⟩
    | str t => exact ⟨_, rfl⟩

/-- script.py's `safe_get` raises IndexError exactly when an integer
index below minus the length reaches a non-empty list. -/
theorem safe_get_script_raises_below_neg_len :
    ∀ (xs : List Json) (i : Int) (ks : List PyKey) (d : Json),
      xs ≠ [] → i < -(xs.length : Int) →
      safe_get_script (Json.arr xs) (PyKey.int i :: ks) d =
        Except.error PyErr.indexError := by
  intro xs i ks d hne hlt
  have hlen : 0 < (xs.length : Int) := by
    exact_mod_cast List.length_pos.mpr hne
  have he : ¬ xs.isEmpty = true := by
    simp [List.isEmpty_iff, hne]
  have h1 : i < (xs.length : Int) := by omega
  have h2 : i < 0 := by omega
  have h3 : ¬ (0 ≤ i + xs.length ∧ (i + (xs.length : Int)).toNat < xs.length) := by
    intro h
    omega
  simp only [safe_get_script, if_neg he, if_pos h1, if_pos h2]
  rw [dif_neg h3]

/-- C1 counterexample: script.py's `safe_get` raises IndexError on the
list [10, 20] with the integer index -3, refuting "never raises". -/
theorem c1_counterexample :
    safe_get_script (Json.arr [Json.int 10, Json.int 20]) [PyKey.int (-3)]
      (Json.str "NA") = Except.error PyErr.indexError := rfl

/-- C1 amended: the common `safe_get` (report_raid.py and the other
report modules) is total: it returns exactly the nested value when the
key sequence navigates to an existing non-null value, and with a null
default it returns null whenever navigation fails or reaches null
(including a null at the end of the path, which yields the default
rather than the value); script.py's variant never raises when all
integer indices are non-negative, but raises IndexError for an integer
index below minus the length of a non-empty list. -/
theorem c1_safe_get :
    (∀ (keys : List PyKey) (data d v : Json),
      specNavigatePath data keys = some v → v ≠ Json.null →
      safe_get data keys d = v) ∧
    (∀ (keys : List PyKey) (data : Json),
      (specNavigatePath data keys = none ∨
        specNavigatePath data keys = some Json.null) →
      safe_get data keys Json.null = Json.null) ∧
    (∀ (keys : List PyKey) (data d : Json),
      (∀ i : Int, PyKey.int i ∈ keys → 0 ≤ i) →
      ∃ v, safe_get_script data keys d = Except.ok v) ∧
    (∀ (xs : List Json) (i : Int) (ks : List PyKey) (d : Json),
      xs ≠ [] → i < -(xs.length : Int) →
      safe_get_script (Json.arr xs) (PyKey.int i :: ks) d =
        Except.error PyErr.indexError) :=
  ⟨safe_get_spec_exact, safe_get_null_default, safe_get_script_total,
    safe_get_script_raises_below_neg_len⟩

/-- Witness for C1 at concrete inputs: an existing nested path is
returned exactly, a missing field collapses to the null default, the
script variant succeeds on non-negative indices and raises below
minus-length. -/
theorem c1_witness :
    safe_get (Json.obj [("a", Json.arr [Json.int 7])])
      [PyKey.str "a", PyKey.int 0] (Json.str "NA") = Json.int 7 ∧
    safe_get (Json.obj [("a", Json.int 7)]) [PyKey.str "b"] Json.null = Json.null ∧
    (∃ v, safe_get_script (Json.obj [("a", Json.int 7)])
      [PyKey.str "a"] (Json.str "NA") = Except.ok v) ∧
    safe_get_script (Json.arr [Json.int 7]) [PyKey.int (-2)] Json.null =
      Except.error PyErr.indexError :=
  ⟨c1_safe_get.1 [PyKey.str "a", PyKey.int 0] _ _ _ rfl
      (fun h => Json.noConfusion h),
   c1_safe_get.2.1 [PyKey.str "b"] _ (Or.inl rfl),
   c1_safe_get.2.2.1 [PyKey.str "a"] _ _
      (fun i hi => by
        rcases List.mem_cons.mp hi with h | h
        · exact PyKey.noConfusion h
        · exact absurd h (List.not_mem_nil _)),
   c1_safe_get.2.2.2 [Json.int 7] (-2) [] Json.null
      (fun h => List.noConfusion h) (by norm_num)⟩

/-- A host whose Storage collection only loads under the pluralised
name: Storage.json is absent, Storages.json lists storage A, and the
volume V1 (with a RAID type) exists under the Storages directory; no
file exists under a literal Storage directory. -/
def hdStoragesFallback : HostDir := fun p =>
  if p = ["Systems.json"] then
    some (Json.obj [("Members", Json.arr [mref "/redfish/v1/Systems/1"])])
  else if p = ["Systems", "1", "Storages.json"] then
    some (Json.obj [("Members", Json.arr [mref "/redfish/v1/Systems/1/Storages/A"])])
  else if p = ["Systems", "1", "Storages", "A.json"] then
    some (Json.obj [
      ("StorageControllers", Json.arr [Json.obj [
        ("Name", Json.str "MegaRAID Ctrl"),
        ("SupportedRAIDTypes", Json.arr [Json.str "RAID1"])]]),
      ("Volumes", mref "/redfish/v1/Systems/1/Storages/A/Volumes")])
  else if p = ["Systems", "1", "Storages", "A", "Volumes.json"] then
    some (Json.obj [("Members", Json.arr
      [mref "/redfish/v1/Systems/1/Storages/A/Volumes/V1"])])
  else if p = ["Systems", "1", "Storages", "A", "Volumes", "V1.json"] then
    some (Json.obj [("Name", Json.str "vol1"), ("RAIDType", Json.str "RAID1")])
  else none

/-- C2: when the Storages fallback is taken, the walk reads the storage
detail and the Volumes collection under the remembered name, but
composes the per-volume detail path with the literal "Storage"
directory (report_raid.py line 157); on this host the volume file
exists under Storages yet no volume is recorded and no RAID is
detected. -/
theorem c2_volume_path_ignores_fallback :
    get_raid_information hdStoragesFallback "host1" "dc1" =
      Except.ok ⟨"dc1", "host1", false, true,
        "RAID supported but not configured",
        [⟨Json.str "MegaRAID Ctrl", Json.null, Json.arr [Json.str "RAID1"]⟩],
        []⟩ ∧
    (hdStoragesFallback
      ["Systems", "1", "Storages", "A", "Volumes", "V1.json"]).isSome = true ∧
    hdStoragesFallback
      ["Systems", "1", "Storage", "A", "Volumes", "V1.json"] = none :=
  ⟨rfl, rfl, rfl⟩

/-- Bind of a success in the error monad. -/
@[simp]
theorem exceptBindOk {σ α : Type} (a : α) (f : α → Except PyErr σ) :
    (Except.ok a >>= f) = f a := rfl

/-- Bind of a failure in the error monad. -/
@[simp]
theorem exceptBindErr {σ α : Type} (e : PyErr) (f : α → Except PyErr σ) :
    ((Except.error e : Except PyErr α) >>= f) = Except.error e := rfl

/-- Pure is success in the error monad. -/
@[simp]
theorem exceptPureOk {σ : Type} (a : σ) :
    (pure a : Except PyErr σ) = Except.ok a := rfl

/-- A property preserved by every successful step is preserved by a
successful monadic fold. -/
theorem foldlM_except_preserves {σ α : Type} (P : σ → Prop)
    (step : σ → α → Except PyErr σ)
    (hstep : ∀ a x a', P a → step a x = Except.ok a' → P a') :
    ∀ (l : List α) (a a' : σ), P a →
      List.foldlM step a l = Except.ok a' → P a' := by
  intro l
  induction l with
  | nil =>
    intro a a' hP h
    rw [List.foldlM_nil] at h
    rw [exceptPureOk] at h
    injection h with h1
    exact h1 ▸ hP
  | cons x xs ih =>
    intro a a' hP h
    rw [List.foldlM_cons] at h
    cases hs : step a x with
    | error e => rw [hs, exceptBindErr] at h; exact Except.noConfusion h
    | ok b =>
      rw [hs, exceptBindOk] at h
      exact ih b a' (hstep a x b hP hs) h

/-- Whether the last recorded volume carries a non-null RAID type; false
with no volume recorded. -/
def lastVolumeFlag (vols : List VolumeInfo) : Bool :=
  match vols.getLast? with
  | some v => !v.raid_type.isNull
  | none => false

/-- Appending a volume makes it the one the flag looks at. -/
theorem lastVolumeFlag_append (vols : List VolumeInfo) (v : VolumeInfo) :
    lastVolumeFlag (vols ++ [v]) = !v.raid_type.isNull := by
  simp [lastVolumeFlag, List.getLast?_concat]

/-- The RAID-detected invariant: the flag always mirrors the last
recorded volume. -/
def raidInv (acc : RaidAcc) : Prop :=
  acc.raid_detected = lastVolumeFlag acc.volumes

/-- A controller iteration never touches the volume list or the
detected flag. -/
theorem raidCtrlStep_fields (acc : RaidAcc) (ctrl : Json) (acc' : RaidAcc)
    (h : raidCtrlStep acc ctrl = Except.ok acc') :
    acc'.volumes = acc.volumes ∧ acc'.raid_detected = acc.raid_detected := by
  simp only [raidCtrlStep] at h
  split at h
  · rw [exceptPureOk] at h; injection h with h1; subst h1; exact ⟨rfl, rfl⟩
  · cases hl : pyLower (pyOr (safe_get ctrl [PyKey.str "Name"] Json.null)
      (pyOr (safe_get ctrl [PyKey.str "Model"] Json.null) (Json.str "Controller"))) with
    | error e => rw [hl, exceptBindErr] at h; exact Except.noConfusion h
    | ok nm =>
      rw [hl, exceptBindOk] at h
      split at h
      · rw [exceptPureOk] at h; injection h with h1; subst h1; exact ⟨rfl, rfl⟩
      · cases hd : pyLower (pyOr (safe_get ctrl [PyKey.str "Description"] Json.null)
          (Json.str "")) with
        | error e => rw [hd, exceptBindErr] at h; exact Except.noConfusion h
        | ok ds =>
          rw [hd, exceptBindOk] at h
          split at h <;>
            (rw [exceptPureOk] at h; injection h with h1; subst h1; exact ⟨rfl, rfl⟩)

/-- A volume iteration preserves the RAID-detected invariant. -/
theorem raidVolStep_inv (hd : HostDir) (sysId stId : String) (acc : RaidAcc)
    (vmem : Json) (acc' : RaidAcc)
    (hP : raidInv acc) (h : raidVolStep hd sysId stId acc vmem = Except.ok acc') :
    raidInv acc' := by
  simp only [raidVolStep] at h
  cases hseg : lastSegmentJson (safe_get vmem [PyKey.str "@odata.id"] Json.null) with
  | error e => rw [hseg, exceptBindErr] at h; exact Except.noConfusion h
  | ok oid =>
    rw [hseg, exceptBindOk] at h
    cases oid with
    | none =>
      dsimp only at h
      rw [exceptPureOk] at h
      injection h with h1
      subst h1
      exact hP
    | some volId =>
      dsimp only at h
      split at h
      · rw [exceptPureOk] at h; injection h with h1; subst h1; exact hP
      · split at h
        · rw [exceptPureOk] at h; injection h with h1; subst h1; exact hP
        · cases hit : toIterable (pyOr (safe_get
            ((hd ["Systems", sysId, "Storage", stId, "Volumes", volId ++ ".json"]).getD Json.null)
            [PyKey.str "Links", PyKey.str "Drives"] (Json.arr [])) (Json.arr [])) with
          | error e => rw [hit, exceptBindErr] at h; exact Except.noConfusion h
          | ok ds =>
            rw [hit, exceptBindOk] at h
            cases hfold : List.foldlM (fun (ids : List String) d => do
              let dRef := safe_get d [PyKey.str "@odata.id"] Json.null
              match ← lastSegmentJson dRef with
              | some i => if i = "" then pure ids else pure (ids ++ [i])
              | none => pure ids) [] ds with
            | error e => rw [hfold, exceptBindErr] at h; exact Except.noConfusion h
            | ok ids =>
              rw [hfold, exceptBindOk, exceptPureOk] at h
              injection h with h1
              subst h1
              show _ = lastVolumeFlag (acc.volumes ++ [_])
              rw [lastVolumeFlag_append]

/-- A storage iteration preserves the RAID-detected invariant. -/
theorem raidStorageStep_inv (hd : HostDir) (sysId dn : String) (acc : RaidAcc)
    (m : Json) (acc' : RaidAcc)
    (hP : raidInv acc) (h : raidStorageStep hd sysId dn acc m = Except.ok acc') :
    raidInv acc' := by
  simp only [raidStorageStep] at h
  cases hseg : lastSegmentJson (safe_get m [PyKey.str "@odata.id"] Json.null) with
  | error e => rw [hseg, exceptBindErr] at h; exact Except.noConfusion h
  | ok oid =>
    rw [hseg, exceptBindOk] at h
    cases oid with
    | none =>
      dsimp only at h
      rw [exceptPureOk] at h
      injection h with h1
      subst h1
      exact hP
    | some stId =>
      dsimp only at h
      split at h
      · rw [exceptPureOk] at h; injection h with h1; subst h1; exact hP
      · split at h
        · rw [exceptPureOk] at h; injection h with h1; subst h1; exact hP
        · cases hcs : toIterable (pyOr (safe_get
            ((hd ["Systems", sysId, dn, stId ++ ".json"]).getD Json.null)
            [PyKey.str "StorageControllers"] (Json.arr [])) (Json.arr [])) with
          | error e => rw [hcs, exceptBindErr] at h; exact Except.noConfusion h
          | ok cs =>
            rw [hcs, exceptBindOk] at h
            cases hmid : List.foldlM raidCtrlStep acc cs with
            | error e => rw [hmid, exceptBindErr] at h; exact Except.noConfusion h
            | ok mid =>
              rw [hmid, exceptBindOk] at h
              have hmidP : raidInv mid := by
                have hfields := foldlM_except_preserves
                  (fun a => a.volumes = acc.volumes ∧ a.raid_detected = acc.raid_detected)
                  raidCtrlStep
                  (fun a x a2 hPa hstep => by
                    obtain ⟨h1, h2⟩ := raidCtrlStep_fields a x a2 hstep
                    exact ⟨h1.trans hPa.1, h2.trans hPa.2⟩)
                  cs acc mid ⟨rfl, rfl⟩ hmid
                show mid.raid_detected = lastVolumeFlag mid.volumes
                rw [hfields.1, hfields.2]
                exact hP
              split at h
              · rw [exceptPureOk] at h; injection h with h1; subst h1; exact hmidP
              · split at h
                · rw [exceptPureOk] at h; injection h with h1; subst h1; exact hmidP
                · cases hvs : toIterable (pyOr (safe_get
                    ((hd ["Systems", sysId, dn, stId, "Volumes.json"]).getD Json.null)
                    [PyKey.str "Members"] (Json.arr [])) (Json.arr [])) with
                  | error e => rw [hvs, exceptBindErr] at h; exact Except.noConfusion h
                  | ok vs =>
                    rw [hvs, exceptBindOk] at h
                    exact foldlM_except_preserves raidInv
                      (raidVolStep hd sysId stId)
                      (fun a x a2 hPa hstep => raidVolStep_inv hd sysId stId a x a2 hPa hstep)
                      vs mid acc' hmidP h

/-- The storage tail establishes the RAID-detected invariant on the
record it produces. -/
theorem raidWithStorage_inv (hd : HostDir) (hostname datacenter sysId : String)
    (storageColl : Json) (dn : String) (r : RaidResult)
    (h : raidWithStorage hd hostname datacenter sysId storageColl dn = Except.ok r) :
    r.raid_detected = lastVolumeFlag r.volumes := by
  simp only [raidWithStorage] at h
  split at h
  · rw [exceptPureOk] at h; injection h with h1; subst h1; rfl
  · split at h
    · rw [exceptPureOk] at h; injection h with h1; subst h1; rfl
    · cases hsm : toIterable (pyOr (safe_get storageColl
        [PyKey.str "Members"] (Json.arr [])) (Json.arr [])) with
      | error e => rw [hsm, exceptBindErr] at h; exact Except.noConfusion h
      | ok sms =>
        rw [hsm, exceptBindOk] at h
        cases hacc : List.foldlM (raidStorageStep hd sysId dn)
          ⟨false, false, [], []⟩ sms with
        | error e => rw [hacc, exceptBindErr] at h; exact Except.noConfusion h
        | ok acc =>
          rw [hacc, exceptBindOk, exceptPureOk] at h
          injection h with h1
          subst h1
          exact foldlM_except_preserves raidInv _
            (fun a x a2 hPa hstep => raidStorageStep_inv hd sysId dn a x a2 hPa hstep)
            sms ⟨false, false, [], []⟩ acc rfl hacc

/-- C3 amended: after a successful RAID walk the detected flag equals
whether the last recorded volume carries a non-null RAID type (false
when no volume was recorded); an earlier volume with a RAID type is
overwritten by a later one without, so "at least one volume" does not
govern the flag. -/
theorem c3_raid_detected_last_wins :
    ∀ (hd : HostDir) (hostname datacenter : String) (r : RaidResult),
      get_raid_information hd hostname datacenter = Except.ok r →
      r.raid_detected = lastVolumeFlag r.volumes := by
  intro hd hostname datacenter r h
  simp only [get_raid_information] at h
  split at h
  · rw [exceptPureOk] at h; injection h with h1; subst h1; rfl
  · split at h
    · rw [exceptPureOk] at h; injection h with h1; subst h1; rfl
    · cases hseg : lastSegmentJson (safe_get
        (pyOr (safe_get ((hd ["Systems.json"]).getD Json.null)
          [PyKey.str "Members"] (Json.arr [])) (Json.arr []))
        [PyKey.int 0, PyKey.str "@odata.id"] Json.null) with
      | error e => rw [hseg, exceptBindErr] at h; exact Except.noConfusion h
      | ok oid =>
        rw [hseg, exceptBindOk] at h
        cases oid with
        | none =>
          dsimp only at h
          rw [exceptPureOk] at h
          injection h with h1
          subst h1
          rfl
        | some sysId =>
          dsimp only at h
          split at h
          · rw [exceptPureOk] at h; injection h with h1; subst h1; rfl
          · split at h
            · exact raidWithStorage_inv hd hostname datacenter sysId _ _ r h
            · exact raidWithStorage_inv hd hostname datacenter sysId _ _ r h

/-- A host with two volumes under the primary Storage name: V1 carries
RAIDType "RAID1", V2 carries none; V2 is recorded last. -/
def hdLastVolumeWins : HostDir := fun p =>
  if p = ["Systems.json"] then
    some (Json.obj [("Members", Json.arr [mref "/redfish/v1/Systems/1"])])
  else if p = ["Systems", "1", "Storage.json"] then
    some (Json.obj [("Members", Json.arr [mref "/redfish/v1/Systems/1/Storage/A"])])
  else if p = ["Systems", "1", "Storage", "A.json"] then
    some (Json.obj [
      ("StorageControllers", Json.arr [Json.obj [
        ("Name", Json.str "MegaRAID Ctrl"),
        ("SupportedRAIDTypes", Json.arr [Json.str "RAID1"])]]),
      ("Volumes", mref "/redfish/v1/Systems/1/Storage/A/Volumes")])
  else if p = ["Systems", "1", "Storage", "A", "Volumes.json"] then
    some (Json.obj [("Members", Json.arr
      [mref "/redfish/v1/Systems/1/Storage/A/Volumes/V1",
       mref "/redfish/v1/Systems/1/Storage/A/Volumes/V2"])])
  else if p = ["Systems", "1", "Storage", "A", "Volumes", "V1.json"] then
    some (Json.obj [("Name", Json.str "vol1"), ("RAIDType", Json.str "RAID1"),
      ("CapacityBytes", Json.int 10737418240)])
  else if p = ["Systems", "1", "Storage", "A", "Volumes", "V2.json"] then
    some (Json.obj [("Name", Json.str "vol2")])
  else none

/-- C3 counterexample: on `hdLastVolumeWins` the first recorded volume
carries RAIDType "RAID1" (so some volume has a non-null RAID type,
witnessed by the any-test being true), yet the detected flag ends up
false because the second, RAID-less volume was recorded last. -/
theorem c3_counterexample :
    (get_raid_information hdLastVolumeWins "host1" "dc1").map
      (fun r => (r.raid_detected, r.volumes.any (fun v => !v.raid_type.isNull))) =
    Except.ok (false, true) := rfl

/-- Witness for C3 on a concrete host: the flag agrees with the last
recorded volume. -/
theorem c3_witness :
    (get_raid_information hdLastVolumeWins "host1" "dc1").map
      (fun r => r.raid_detected) =
    (get_raid_information hdLastVolumeWins "host1" "dc1").map
      (fun r => lastVolumeFlag r.volumes) := by
  cases hres : get_raid_information hdLastVolumeWins "host1" "dc1" with
  | error e => rfl
  | ok r =>
    simp only [Except.map]
    exact congrArg Except.ok
      (c3_raid_detected_last_wins hdLastVolumeWins "host1" "dc1" r hres)

/-- The classification chain written with the claim's two positive
capable cases spelled out. -/
theorem classifyMessage_eq (d c : Bool) (vols : List VolumeInfo) :
    classifyMessage d c vols =
      (if d then "Hardware RAID detected"
       else if c then
        (if vols.isEmpty then "RAID supported but not configured"
         else "RAID-capable controller with volumes in HBA mode")
       else "No hardware RAID detected (possible HBA or software RAID)") := by
  cases d <;> cases c <;> cases he : vols.isEmpty <;>
    simp [classifyMessage, he]

/-- The storage tail's message, when not the storage early message, is
the classification of the record's own flags and volumes. -/
theorem raidWithStorage_message (hd : HostDir)
    (hostname datacenter sysId : String) (storageColl : Json) (dn : String)
    (r : RaidResult)
    (h : raidWithStorage hd hostname datacenter sysId storageColl dn = Except.ok r)
    (hmsg : r.message ≠ "No storage info exposed via Redfish") :
    r.message = (if r.raid_detected then "Hardware RAID detected"
      else if r.raid_capable then
        (if r.volumes.isEmpty then "RAID supported but not configured"
         else "RAID-capable controller with volumes in HBA mode")
      else "No hardware RAID detected (possible HBA or software RAID)") := by
  simp only [raidWithStorage] at h
  split at h
  · rw [exceptPureOk] at h; injection h with h1; subst h1; exact absurd rfl hmsg
  · split at h
    · rw [exceptPureOk] at h; injection h with h1; subst h1; exact absurd rfl hmsg
    · cases hsm : toIterable (pyOr (safe_get storageColl
        [PyKey.str "Members"] (Json.arr [])) (Json.arr [])) with
      | error e => rw [hsm, exceptBindErr] at h; exact Except.noConfusion h
      | ok sms =>
        rw [hsm, exceptBindOk] at h
        cases hacc : List.foldlM (raidStorageStep hd sysId dn)
          ⟨false, false, [], []⟩ sms with
        | error e => rw [hacc, exceptBindErr] at h; exact Except.noConfusion h
        | ok acc =>
          rw [hacc, exceptBindOk, exceptPureOk] at h
          injection h with h1
          subst h1
          exact classifyMessage_eq acc.raid_detected acc.raid_capable acc.volumes

/-- C6: whenever the RAID walk passes the systems and storage early
checks, the per-host message is chosen by evaluating, in order: RAID
detected, then RAID-capable with volumes, then RAID-capable without
volumes, then the no-RAID fallback. -/
theorem c6_classification :
    ∀ (hd : HostDir) (hostname datacenter : String) (r : RaidResult),
      get_raid_information hd hostname datacenter = Except.ok r →
      r.message ≠ "No systems info exposed via Redfish" →
      r.message ≠ "No storage info exposed via Redfish" →
      r.message = (if r.raid_detected then "Hardware RAID detected"
        else if r.raid_capable then
          (if r.volumes.isEmpty then "RAID supported but not configured"
           else "RAID-capable controller with volumes in HBA mode")
        else "No hardware RAID detected (possible HBA or software RAID)") := by
  intro hd hostname datacenter r h h1 h2
  simp only [get_raid_information] at h
  split at h
  · rw [exceptPureOk] at h; injection h with he; subst he; exact absurd rfl h1
  · split at h
    · rw [exceptPureOk] at h; injection h with he; subst he; exact absurd rfl h1
    · cases hseg : lastSegmentJson (safe_get
        (pyOr (safe_get ((hd ["Systems.json"]).getD Json.null)
          [PyKey.str "Members"] (Json.arr [])) (Json.arr []))
        [PyKey.int 0, PyKey.str "@odata.id"] Json.null) with
      | error e => rw [hseg, exceptBindErr] at h; exact Except.noConfusion h
      | ok oid =>
        rw [hseg, exceptBindOk] at h
        cases oid with
        | none =>
          dsimp only at h
          rw [exceptPureOk] at h
          injection h with he
          subst he
          exact absurd rfl h1
        | some sysId =>
          dsimp only at h
          split at h
          · rw [exceptPureOk] at h; injection h with he; subst he; exact absurd rfl h1
          · split at h
            · exact raidWithStorage_message hd hostname datacenter sysId _ _ r h h2
            · exact raidWithStorage_message hd hostname datacenter sysId _ _ r h h2

/-- Witness for C6 on a concrete host that reaches the classification:
RAID-capable with volumes and no detected RAID gives the HBA-mode
message. -/
theorem c6_witness :
    (get_raid_information hdLastVolumeWins "host1" "dc1").map (fun r => r.message) =
      Except.ok "RAID-capable controller with volumes in HBA mode" := by
  have hproj : (get_raid_information hdLastVolumeWins "host1" "dc1").map
      (fun r => (r.message, r.raid_detected, r.raid_capable, r.volumes.isEmpty)) =
      Except.ok ("RAID-capable controller with volumes in HBA mode",
        false, true, false) := rfl
  cases hres : get_raid_information hdLastVolumeWins "host1" "dc1" with
  | error e => rw [hres] at hproj; exact Except.noConfusion hproj
  | ok r =>
    rw [hres] at hproj
    simp only [Except.map, Except.ok.injEq, Prod.mk.injEq] at hproj
    obtain ⟨hm, hdet, hcap, hvol⟩ := hproj
    have hmsg := c6_classification hdLastVolumeWins "host1" "dc1" r hres
      (by rw [hm]; decide) (by rw [hm]; decide)
    simp only [Except.map, Except.ok.injEq]
    rw [hmsg, hdet, hcap, hvol]
    simp

/-- Equality of the four captured watt fields of two power accumulators. -/
def powerFieldsEq (x y : PowerAcc) : Prop :=
  x.PowerConsumedWatts = y.PowerConsumedWatts ∧
  x.MinConsumedWatts = y.MinConsumedWatts ∧
  x.MaxConsumedWatts = y.MaxConsumedWatts ∧
  x.AverageConsumedWatts = y.AverageConsumedWatts

/-- The Power.json block leaves the state list alone and either leaves
the whole accumulator unchanged or sets the found flag while writing
the metrics. -/
theorem powerMetricsBlock_cases (hd : HostDir) (cid : String) (a a' : PowerAcc)
    (h : powerMetricsBlock hd cid a = Except.ok a') :
    a'.power_states = a.power_states ∧ (a' = a ∨ a'.found = true) := by
  simp only [powerMetricsBlock] at h
  cases hf : hd ["Chassis", cid, "Power.json"] with
  | none =>
    rw [hf] at h
    dsimp only at h
    rw [exceptPureOk] at h
    injection h with h1
    subst h1
    exact ⟨rfl, Or.inl rfl⟩
  | some pd =>
    rw [hf] at h
    dsimp only at h
    cases hg : pyGet pd "PowerControl" (Json.arr []) with
    | error e => rw [hg, exceptBindErr] at h; exact Except.noConfusion h
    | ok pc =>
      rw [hg, exceptBindOk] at h
      split at h
      · rw [exceptPureOk] at h; injection h with h1; subst h1
        exact ⟨rfl, Or.inl rfl⟩
      · cases hn : pyLen pc with
        | error e => rw [hn, exceptBindErr] at h; exact Except.noConfusion h
        | ok n =>
          rw [hn, exceptBindOk] at h
          split at h
          · rw [exceptPureOk] at h; injection h with h1; subst h1
            exact ⟨rfl, Or.inl rfl⟩
          · cases hz : pySubscriptZero pc with
            | error e => rw [hz, exceptBindErr] at h; exact Except.noConfusion h
            | ok p0 =>
              rw [hz, exceptBindOk, exceptPureOk] at h
              injection h with h1
              subst h1
              exact ⟨rfl, Or.inr rfl⟩

/-- With the flag already set, the capture attempt is a no-op. -/
theorem powerCapture_found (hd : HostDir) (cid : String) (det : Json)
    (b : PowerAcc) (hbf : b.found = true) :
    powerCapture hd cid det b = Except.ok b := by
  simp [powerCapture, hbf]

/-- The capture attempt never touches the state list. -/
theorem powerCapture_states (hd : HostDir) (cid : String) (det : Json)
    (b a' : PowerAcc) (h : powerCapture hd cid det b = Except.ok a') :
    a'.power_states = b.power_states := by
  simp only [powerCapture] at h
  split at h
  · rw [exceptPureOk] at h; injection h with h1; subst h1; rfl
  · cases hp : pyGet det "Power" Json.null with
    | error e => rw [hp, exceptBindErr] at h; exact Except.noConfusion h
    | ok pref =>
      rw [hp, exceptBindOk] at h
      split at h
      · exact (powerMetricsBlock_cases hd cid b a' h).1
      · rw [exceptPureOk] at h; injection h with h1; subst h1; rfl

/-- While the flag stays unset through the capture attempt, the watt
fields stay untouched. -/
theorem powerCapture_nowrite (hd : HostDir) (cid : String) (det : Json)
    (b a' : PowerAcc) (hbf : b.found = false)
    (h : powerCapture hd cid det b = Except.ok a') (hf' : a'.found = false) :
    powerFieldsEq a' b := by
  simp only [powerCapture] at h
  rw [if_neg (by rw [hbf]; exact Bool.false_ne_true)] at h
  cases hp : pyGet det "Power" Json.null with
  | error e => rw [hp, exceptBindErr] at h; exact Except.noConfusion h
  | ok pref =>
    rw [hp, exceptBindOk] at h
    split at h
    · obtain ⟨_, hcase⟩ := powerMetricsBlock_cases hd cid b a' h
      rcases hcase with rfl | hfound
      · exact ⟨rfl, rfl, rfl, rfl⟩
      · rw [hfound] at hf'; exact Bool.noConfusion hf'
    · rw [exceptPureOk] at h; injection h with h1; subst h1
      exact ⟨rfl, rfl, rfl, rfl⟩

/-- Once the metrics have been captured, one more chassis member leaves
the flag set and the four watt fields untouched. -/
theorem powerStep_found (hd : HostDir) (m : Json) (a a' : PowerAcc)
    (hf : a.found = true) (h : powerStep hd a m = Except.ok a') :
    a'.found = true ∧ powerFieldsEq a' a := by
  simp only [powerStep] at h
  cases hg : pyGet m "@odata.id" Json.null with
  | error e => rw [hg, exceptBindErr] at h; exact Except.noConfusion h
  | ok ref =>
    rw [hg, exceptBindOk] at h
    cases hseg : lastSegmentJson ref with
    | error e => rw [hseg, exceptBindErr] at h; exact Except.noConfusion h
    | ok oid =>
      rw [hseg, exceptBindOk] at h
      cases oid with
      | none =>
        dsimp only at h
        rw [exceptPureOk] at h
        injection h with h1
        subst h1
        exact ⟨hf, rfl, rfl, rfl, rfl⟩
      | some cid =>
        dsimp only at h
        split at h
        · rw [exceptPureOk] at h; injection h with h1; subst h1
          exact ⟨hf, rfl, rfl, rfl, rfl⟩
        · cases hdet : hd ["Chassis", cid ++ ".json"] with
          | none =>
            rw [hdet] at h
            dsimp only at h
            rw [exceptPureOk] at h
            injection h with h1
            subst h1
            exact ⟨hf, rfl, rfl, rfl, rfl⟩
          | some det =>
            rw [hdet] at h
            dsimp only at h
            split at h
            · rw [exceptPureOk, exceptBindOk] at h
              rw [powerCapture_found hd cid det a hf] at h
              injection h with h1
              subst h1
              exact ⟨hf, rfl, rfl, rfl, rfl⟩
            · cases hl : pyLower (safe_get det [PyKey.str "PowerState"] (Json.str "NA")) with
              | error e => rw [hl, exceptBindErr] at h; exact Except.noConfusion h
              | ok l =>
                rw [hl, exceptBindOk, exceptPureOk, exceptBindOk] at h
                rw [powerCapture_found hd cid det
                  { a with power_states := a.power_states ++ [l] } hf] at h
                injection h with h1
                subst h1
                exact ⟨hf, rfl, rfl, rfl, rfl⟩

/-- While the flag stays unset across a member, the watt fields stay
untouched too: metrics are only ever written together with the flag. -/
theorem powerStep_nowrite (hd : HostDir) (m : Json) (a a' : PowerAcc)
    (hf : a.found = false) (h : powerStep hd a m = Except.ok a')
    (hf' : a'.found = false) : powerFieldsEq a' a := by
  simp only [powerStep] at h
  cases hg : pyGet m "@odata.id" Json.null with
  | error e => rw [hg, exceptBindErr] at h; exact Except.noConfusion h
  | ok ref =>
    rw [hg, exceptBindOk] at h
    cases hseg : lastSegmentJson ref with
    | error e => rw [hseg, exceptBindErr] at h; exact Except.noConfusion h
    | ok oid =>
      rw [hseg, exceptBindOk] at h
      cases oid with
      | none =>
        dsimp only at h
        rw [exceptPureOk] at h
        injection h with h1
        subst h1
        exact ⟨rfl, rfl, rfl, rfl⟩
      | some cid =>
        dsimp only at h
        split at h
        · rw [exceptPureOk] at h; injection h with h1; subst h1
          exact ⟨rfl, rfl, rfl, rfl⟩
        · cases hdet : hd ["Chassis", cid ++ ".json"] with
          | none =>
            rw [hdet] at h
            dsimp only at h
            rw [exceptPureOk] at h
            injection h with h1
            subst h1
            exact ⟨rfl, rfl, rfl, rfl⟩
          | some det =>
            rw [hdet] at h
            dsimp only at h
            split at h
            · rw [exceptPureOk, exceptBindOk] at h
              exact powerCapture_nowrite hd cid det a a' hf h hf'
            · cases hl : pyLower (safe_get det [PyKey.str "PowerState"] (Json.str "NA")) with
              | error e => rw [hl, exceptBindErr] at h; exact Except.noConfusion h
              | ok l =>
                rw [hl, exceptBindOk, exceptPureOk, exceptBindOk] at h
                exact powerCapture_nowrite hd cid det
                  { a with power_states := a.power_states ++ [l] } a' hf h hf'

/-- A host with two chassis: chassis 1 exposes a loadable Power.json
whose PowerControl is empty, chassis 2 exposes one with real metrics. -/
def hdPowerEmptyControl : HostDir := fun p =>
  if p = ["Chassis.json"] then
    some (Json.obj [("Members", Json.arr
      [mref "/redfish/v1/Chassis/1", mref "/redfish/v1/Chassis/2"])])
  else if p = ["Chassis", "1.json"] then
    some (Json.obj [("PowerState", Json.str "On"),
      ("Power", mref "/redfish/v1/Chassis/1/Power")])
  else if p = ["Chassis", "1", "Power.json"] then
    some (Json.obj [("PowerControl", Json.arr [])])
  else if p = ["Chassis", "2.json"] then
    some (Json.obj [("PowerState", Json.str "Off"),
      ("Power", mref "/redfish/v1/Chassis/2/Power")])
  else if p = ["Chassis", "2", "Power.json"] then
    some (Json.obj [("PowerControl", Json.arr [Json.obj [
      ("PowerConsumedWatts", Json.int 222),
      ("PowerMetrics", Json.obj [
        ("MinConsumedWatts", Json.int 100),
        ("MaxConsumedWatts", Json.int 300),
        ("AverageConsumedWatts", Json.int 200)])]])])
  else none

/-- C4 counterexample: chassis 1's Power.json is present and loadable
but its PowerControl is empty, so no capture happens there and chassis
2's metrics are taken — the first chassis with a loadable Power.json
does not win. -/
theorem c4_counterexample :
    (get_power_metrics hdPowerEmptyControl "host1" "dc1").map
      (fun r => (r.PowerConsumedWatts, r.MinConsumedWatts)) =
      Except.ok (Json.int 222, Json.int 100) ∧
    (hdPowerEmptyControl ["Chassis", "1", "Power.json"]).isSome = true :=
  ⟨rfl, rfl⟩

/-- C4 amended: metrics are captured from the first chassis in member
order whose detail has a truthy dict Power reference and whose
Power.json loads with a truthy non-empty PowerControl; once the found
flag is set, later members never alter the four watt fields, and while
it stays unset the fields are never written. -/
theorem c4_first_capture_wins :
    (∀ (hd : HostDir) (m : Json) (a a' : PowerAcc),
      a.found = true → powerStep hd a m = Except.ok a' →
      a'.found = true ∧ powerFieldsEq a' a) ∧
    (∀ (hd : HostDir) (ms : List Json) (a a' : PowerAcc),
      a.found = true → List.foldlM (powerStep hd) a ms = Except.ok a' →
      a'.found = true ∧ powerFieldsEq a' a) ∧
    (∀ (hd : HostDir) (m : Json) (a a' : PowerAcc),
      a.found = false → powerStep hd a m = Except.ok a' →
      a'.found = false → powerFieldsEq a' a) := by
  refine ⟨powerStep_found, ?_, powerStep_nowrite⟩
  intro hd ms a a' hf h
  have := foldlM_except_preserves
    (fun x => x.found = true ∧ powerFieldsEq x a) (powerStep hd)
    (fun b m b' hPb hstep => by
      obtain ⟨hbf, hbe⟩ := powerStep_found hd m b b' hPb.1 hstep
      exact ⟨hbf, hbe.1.trans hPb.2.1, hbe.2.1.trans hPb.2.2.1,
        hbe.2.2.1.trans hPb.2.2.2.1, hbe.2.2.2.trans hPb.2.2.2.2⟩)
    ms a a' ⟨hf, rfl, rfl, rfl, rfl⟩ h
  exact this

/-- Witness for C4: with the flag already set and metrics 111, walking a
member whose chassis exposes fresh Power data leaves the metrics at
111. -/
theorem c4_witness :
    (List.foldlM (powerStep hdPowerEmptyControl)
      ⟨[], true, Json.int 111, Json.int 111, Json.int 111, Json.int 111⟩
      [mref "/redfish/v1/Chassis/2"]).map (fun a => a.PowerConsumedWatts) =
      Except.ok (Json.int 111) := by
  cases hres : List.foldlM (powerStep hdPowerEmptyControl)
      ⟨[], true, Json.int 111, Json.int 111, Json.int 111, Json.int 111⟩
      [mref "/redfish/v1/Chassis/2"] with
  | error e =>
    have hok : List.foldlM (powerStep hdPowerEmptyControl)
        ⟨[], true, Json.int 111, Json.int 111, Json.int 111, Json.int 111⟩
        [mref "/redfish/v1/Chassis/2"] =
        Except.ok ⟨["off"], true, Json.int 111, Json.int 111,
          Json.int 111, Json.int 111⟩ := rfl
    rw [hok] at hres
    exact Except.noConfusion hres
  | ok a =>
    simp only [Except.map, Except.ok.injEq]
    exact (c4_first_capture_wins.2.1 hdPowerEmptyControl
      [mref "/redfish/v1/Chassis/2"] _ a rfl hres).2.1

/-- A member of the fan walk whose chassis detail is unavailable leaves
the accumulator untouched and the walk continues. -/
theorem fanStep_skip_missing_detail (hd : HostDir) (acc : FanAcc) (m : Json)
    (ref : Json) (cid : String)
    (hg : pyGet m "@odata.id" Json.null = Except.ok ref)
    (hseg : lastSegmentJson ref = Except.ok (some cid))
    (hid : cid ≠ "")
    (hdet : hd ["Chassis", cid ++ ".json"] = none) :
    fanStep hd acc m = Except.ok acc := by
  simp only [fanStep]
  rw [hg, exceptBindOk, hseg, exceptBindOk]
  dsimp only
  rw [if_neg hid, hdet]
  rfl

/-- A member of the power walk whose chassis detail is unavailable
leaves the accumulator untouched and the walk continues. -/
theorem powerStep_skip_missing_detail (hd : HostDir) (acc : PowerAcc) (m : Json)
    (ref : Json) (cid : String)
    (hg : pyGet m "@odata.id" Json.null = Except.ok ref)
    (hseg : lastSegmentJson ref = Except.ok (some cid))
    (hid : cid ≠ "")
    (hdet : hd ["Chassis", cid ++ ".json"] = none) :
    powerStep hd acc m = Except.ok acc := by
  simp only [powerStep]
  rw [hg, exceptBindOk, hseg, exceptBindOk]
  dsimp only
  rw [if_neg hid, hdet]
  rfl

/-- A member of the temperature walk whose chassis detail is
unavailable contributes no power state, but is not skipped: its
Thermal resource is still read and only the temperature list can
grow. -/
theorem tempStep_missing_detail_no_state (hd : HostDir) (acc : TempAcc)
    (m : Json) (cid : String) (acc' : TempAcc)
    (hseg : lastSegmentJson (safe_get m [PyKey.str "@odata.id"] Json.null) =
      Except.ok (some cid))
    (hid : cid ≠ "")
    (hdet : pyTruthy ((hd ["Chassis", cid ++ ".json"]).getD Json.null) = false)
    (h : tempStep hd acc m = Except.ok acc') :
    acc'.power_states = acc.power_states := by
  simp only [tempStep] at h
  rw [hseg, exceptBindOk] at h
  dsimp only at h
  rw [if_neg hid] at h
  rw [if_neg (by rw [hdet]; exact Bool.false_ne_true)] at h
  rw [exceptPureOk, exceptBindOk] at h
  split at h
  · rw [exceptPureOk] at h; injection h with h1; subst h1; rfl
  · cases hts : toIterable (pyOr (safe_get
      ((hd ["Chassis", cid, "Thermal.json"]).getD Json.null)
      [PyKey.str "Temperatures"] (Json.arr [])) (Json.arr [])) with
    | error e => rw [hts, exceptBindErr] at h; exact Except.noConfusion h
    | ok ts =>
      rw [hts, exceptBindOk, exceptPureOk] at h
      injection h with h1
      subst h1
      rfl

/-- A host with three chassis members A, B, C where A's detail file is
absent but A still exposes a Thermal resource with one temperature and
one fan; B and C have details, power states and fans. -/
def hdDetailMissing : HostDir := fun p =>
  if p = ["Chassis.json"] then
    some (Json.obj [("Members", Json.arr
      [mref "/redfish/v1/Chassis/A", mref "/redfish/v1/Chassis/B",
       mref "/redfish/v1/Chassis/C"])])
  else if p = ["Chassis", "A", "Thermal.json"] then
    some (Json.obj [
      ("Temperatures", Json.arr [Json.obj [("Name", Json.str "T0"),
        ("ReadingCelsius", Json.int 33), ("PhysicalContext", Json.str "CPU")]]),
      ("Fans", Json.arr [Json.obj [("Name", Json.str "FanA"),
        ("Reading", Json.int 1000)]])])
  else if p = ["Chassis", "B.json"] then
    some (Json.obj [("PowerState", Json.str "On"),
      ("Thermal", mref "/redfish/v1/Chassis/B/Thermal")])
  else if p = ["Chassis", "B", "Thermal.json"] then
    some (Json.obj [("Fans", Json.arr [Json.obj [("Name", Json.str "FanB"),
      ("Reading", Json.int 2000)]])])
  else if p = ["Chassis", "C.json"] then
    some (Json.obj [("PowerState", Json.str "On"),
      ("Thermal", mref "/redfish/v1/Chassis/C/Thermal")])
  else if p = ["Chassis", "C", "Thermal.json"] then
    some (Json.obj [("Fans", Json.arr [Json.obj [("Name", Json.str "FanC"),
      ("Reading", Json.int 3000)]])])
  else none

/-- C5 counterexample: in the temperature walk, member A has no chassis
detail file yet contributes a recorded temperature, so a member with an
unavailable detail does not contribute nothing. -/
theorem c5_counterexample :
    (get_temperature_information hdDetailMissing "host1" "dc1").map
      (fun r => r.temperatures.map (fun t => t.chassis_id)) =
      Except.ok ["A"] ∧
    hdDetailMissing ["Chassis", "A.json"] = none :=
  ⟨rfl, rfl⟩

/-- C5 amended: in the fan and power walks a member whose chassis
detail is unavailable is skipped entirely (the accumulator is returned
unchanged and the walk continues); in the temperature walk such a
member contributes no power state but its Thermal resource is still
read; and on a three-member host with one absent detail the fan walk
still collects the other two members' fans without aborting. -/
theorem c5_missing_member :
    (∀ (hd : HostDir) (acc : FanAcc) (m : Json) (ref : Json) (cid : String),
      pyGet m "@odata.id" Json.null = Except.ok ref →
      lastSegmentJson ref = Except.ok (some cid) →
      cid ≠ "" →
      hd ["Chassis", cid ++ ".json"] = none →
      fanStep hd acc m = Except.ok acc) ∧
    (∀ (hd : HostDir) (acc : PowerAcc) (m : Json) (ref : Json) (cid : String),
      pyGet m "@odata.id" Json.null = Except.ok ref →
      lastSegmentJson ref = Except.ok (some cid) →
      cid ≠ "" →
      hd ["Chassis", cid ++ ".json"] = none →
      powerStep hd acc m = Except.ok acc) ∧
    (∀ (hd : HostDir) (acc : TempAcc) (m : Json) (cid : String) (acc' : TempAcc),
      lastSegmentJson (safe_get m [PyKey.str "@odata.id"] Json.null) =
        Except.ok (some cid) →
      cid ≠ "" →
      pyTruthy ((hd ["Chassis", cid ++ ".json"]).getD Json.null) = false →
      tempStep hd acc m = Except.ok acc' →
      acc'.power_states = acc.power_states) ∧
    ((get_fan_metrics hdDetailMissing "host1" "dc1").map
      (fun r => (r.fans.map (fun f => f.name), r.power_states)) =
      Except.ok ([Json.str "FanB", Json.str "FanC"], ["on", "on"]) ∧
      hdDetailMissing ["Chassis", "A.json"] = none) :=
  ⟨fanStep_skip_missing_detail, powerStep_skip_missing_detail,
   tempStep_missing_detail_no_state, rfl, rfl⟩

/-- Witness for C5: a fan-walk member over an empty host directory is
skipped, returning the accumulator unchanged. -/
theorem c5_witness :
    fanStep (fun _ => none) ⟨["on"], [⟨Json.str "F", Json.int 1⟩]⟩
      (mref "/redfish/v1/Chassis/X") =
      Except.ok ⟨["on"], [⟨Json.str "F", Json.int 1⟩]⟩ :=
  c5_missing_member.1 (fun _ => none) ⟨["on"], [⟨Json.str "F", Json.int 1⟩]⟩
    (mref "/redfish/v1/Chassis/X") (Json.str "/redfish/v1/Chassis/X") "X"
    rfl rfl (by decide) rfl

/-- A successful `dict.get` with null default agrees with the one-key
`safe_get`. -/
theorem safe_get_single_of_pyGet (m : Json) (k : String) (ref : Json)
    (h : pyGet m k Json.null = Except.ok ref) :
    safe_get m [PyKey.str k] Json.null = ref := by
  cases m with
  | obj kvs =>
    simp only [pyGet, Except.ok.injEq] at h
    by_cases hn : ((lookupObj kvs k).getD Json.null).isNull = true
    · have hn' : (lookupObj kvs k).getD Json.null = Json.null := Json.isNull_iff.mp hn
      have hr : ref = Json.null := by rw [← h]; exact hn'
      simp [safe_get, hn', Json.isNull, hr]
    · have hn'' : ref.isNull = false := by
        rw [← h]; exact Bool.eq_false_iff.mpr hn
      simp [safe_get, h, hn'']
  | null => exact Except.noConfusion h
  | bool b => exact Except.noConfusion h
  | int n => exact Except.noConfusion h
  | num q => exact Except.noConfusion h
  | str s => exact Except.noConfusion h
  | arr xs => exact Except.noConfusion h

/-- On a falsy value a single-key `safe_get` with the "NA" default
returns "NA". -/
theorem safe_get_falsy_str (j : Json) (k : String)
    (h : pyTruthy j = false) :
    safe_get j [PyKey.str k] (Json.str "NA") = Json.str "NA" := by
  cases j with
  | null => rfl
  | bool b => rfl
  | int n => rfl
  | num q => rfl
  | str s => rfl
  | arr xs => rfl
  | obj kvs =>
    cases kvs with
    | nil => rfl
    | cons a t => exact absurd h (by simp [pyTruthy])

/-- A temperature-walk member's power-state contribution is exactly the
reference collector's. -/
theorem tempStep_collect (hd : HostDir) (a : TempAcc) (m : Json) (a' : TempAcc)
    (h : tempStep hd a m = Except.ok a') :
    ∃ c, collectHead hd m = Except.ok c ∧
      a'.power_states = a.power_states ++ c := by
  simp only [tempStep] at h
  simp only [collectHead]
  cases hseg : lastSegmentJson (safe_get m [PyKey.str "@odata.id"] Json.null) with
  | error e => rw [hseg, exceptBindErr] at h; exact Except.noConfusion h
  | ok oid =>
    rw [hseg, exceptBindOk] at h
    rw [exceptBindOk]
    cases oid with
    | none =>
      dsimp only at h ⊢
      rw [exceptPureOk] at h
      injection h with h1
      subst h1
      exact ⟨[], rfl, by simp⟩
    | some cid =>
      dsimp only at h ⊢
      by_cases hid : cid = ""
      · rw [if_pos hid] at h ⊢
        rw [exceptPureOk] at h
        injection h with h1
        subst h1
        exact ⟨[], rfl, by simp⟩
      · rw [if_neg hid] at h ⊢
        by_cases hdet : pyTruthy ((hd ["Chassis", cid ++ ".json"]).getD Json.null) = true
        · rw [if_pos hdet] at h
          rw [if_neg (fun hh => hh hdet)]
          by_cases hps : isStrEq (safe_get
              ((hd ["Chassis", cid ++ ".json"]).getD Json.null)
              [PyKey.str "PowerState"] (Json.str "NA")) "NA" = true
          · rw [if_pos hps] at h ⊢
            rw [exceptPureOk, exceptBindOk] at h
            refine ⟨[], rfl, ?_⟩
            rw [List.append_nil]
            split at h
            · rw [exceptPureOk] at h; injection h with h1; subst h1; rfl
            · cases hts : toIterable (pyOr (safe_get
                ((hd ["Chassis", cid, "Thermal.json"]).getD Json.null)
                [PyKey.str "Temperatures"] (Json.arr [])) (Json.arr [])) with
              | error e => rw [hts, exceptBindErr] at h; exact Except.noConfusion h
              | ok ts =>
                rw [hts, exceptBindOk, exceptPureOk] at h
                injection h with h1
                subst h1
                rfl
          · rw [if_neg hps] at h ⊢
            cases hl : pyLower (safe_get
                ((hd ["Chassis", cid ++ ".json"]).getD Json.null)
                [PyKey.str "PowerState"] (Json.str "NA")) with
            | error e => rw [hl, exceptBindErr] at h; exact Except.noConfusion h
            | ok l =>
              rw [hl, exceptBindOk] at h
              rw [exceptBindOk]
              rw [exceptPureOk, exceptBindOk] at h
              refine ⟨[l], rfl, ?_⟩
              split at h
              · rw [exceptPureOk] at h; injection h with h1; subst h1; rfl
              · cases hts : toIterable (pyOr (safe_get
                  ((hd ["Chassis", cid, "Thermal.json"]).getD Json.null)
                  [PyKey.str "Temperatures"] (Json.arr [])) (Json.arr [])) with
                | error e => rw [hts, exceptBindErr] at h; exact Except.noConfusion h
                | ok ts =>
                  rw [hts, exceptBindOk, exceptPureOk] at h
                  injection h with h1
                  subst h1
                  rfl
        · have hdet' : pyTruthy ((hd ["Chassis", cid ++ ".json"]).getD Json.null) = false :=
            Bool.eq_false_iff.mpr hdet
          rw [if_neg (by rw [hdet']; exact Bool.false_ne_true)] at h
          rw [if_pos (by rw [hdet']; exact Bool.false_ne_true)]
          rw [exceptPureOk, exceptBindOk] at h
          refine ⟨[], rfl, ?_⟩
          rw [List.append_nil]
          split at h
          · rw [exceptPureOk] at h; injection h with h1; subst h1; rfl
          · cases hts : toIterable (pyOr (safe_get
              ((hd ["Chassis", cid, "Thermal.json"]).getD Json.null)
              [PyKey.str "Temperatures"] (Json.arr [])) (Json.arr [])) with
            | error e => rw [hts, exceptBindErr] at h; exact Except.noConfusion h
            | ok ts =>
              rw [hts, exceptBindOk, exceptPureOk] at h
              injection h with h1
              subst h1
              rfl

/-- The Thermal tail of a fan-walk member never touches the state list. -/
theorem fanThermal_states (hd : HostDir) (cid : String) (det : Json)
    (b a' : FanAcc) (h : fanThermal hd cid det b = Except.ok a') :
    a'.power_states = b.power_states := by
  simp only [fanThermal] at h
  cases ht : pyGet det "Thermal" Json.null with
  | error e => rw [ht, exceptBindErr] at h; exact Except.noConfusion h
  | ok tref =>
    rw [ht, exceptBindOk] at h
    split at h
    · cases htd : hd ["Chassis", cid, "Thermal.json"] with
      | none =>
        rw [htd] at h
        dsimp only at h
        rw [exceptPureOk] at h
        injection h with h1
        subst h1
        rfl
      | some td =>
        rw [htd] at h
        dsimp only at h
        cases hfa : pyGet td "Fans" (Json.arr []) with
        | error e => rw [hfa, exceptBindErr] at h; exact Except.noConfusion h
        | ok fa =>
          rw [hfa, exceptBindOk] at h
          cases hfs : toIterable fa with
          | error e => rw [hfs, exceptBindErr] at h; exact Except.noConfusion h
          | ok fs =>
            rw [hfs, exceptBindOk, exceptPureOk] at h
            injection h with h1
            subst h1
            rfl
    · rw [exceptPureOk] at h; injection h with h1; subst h1; rfl

/-- A fan-walk member's power-state contribution is exactly the
reference collector's. -/
theorem fanStep_collect (hd : HostDir) (a : FanAcc) (m : Json) (a' : FanAcc)
    (h : fanStep hd a m = Except.ok a') :
    ∃ c, collectHead hd m = Except.ok c ∧
      a'.power_states = a.power_states ++ c := by
  simp only [fanStep] at h
  simp only [collectHead]
  cases hg : pyGet m "@odata.id" Json.null with
  | error e => rw [hg, exceptBindErr] at h; exact Except.noConfusion h
  | ok ref =>
    rw [hg, exceptBindOk] at h
    rw [safe_get_single_of_pyGet m "@odata.id" ref hg]
    cases hseg : lastSegmentJson ref with
    | error e => rw [hseg, exceptBindErr] at h; exact Except.noConfusion h
    | ok oid =>
      rw [hseg, exceptBindOk] at h
      rw [exceptBindOk]
      cases oid with
      | none =>
        dsimp only at h ⊢
        rw [exceptPureOk] at h
        injection h with h1
        subst h1
        exact ⟨[], rfl, by simp⟩
      | some cid =>
        dsimp only at h ⊢
        by_cases hid : cid = ""
        · rw [if_pos hid] at h ⊢
          rw [exceptPureOk] at h
          injection h with h1
          subst h1
          exact ⟨[], rfl, by simp⟩
        · rw [if_neg hid] at h ⊢
          cases hdet : hd ["Chassis", cid ++ ".json"] with
          | none =>
            rw [hdet] at h
            dsimp only at h
            rw [exceptPureOk] at h
            injection h with h1
            subst h1
            rw [Option.getD_none]
            rw [if_pos (show ¬ pyTruthy Json.null = true by simp [pyTruthy])]
            exact ⟨[], rfl, by simp⟩
          | some det =>
            rw [hdet] at h
            dsimp only at h
            rw [Option.getD_some]
            by_cases htr : pyTruthy det = true
            · rw [if_neg (fun hh => hh htr)]
              by_cases hps : isStrEq (safe_get det [PyKey.str "PowerState"]
                  (Json.str "NA")) "NA" = true
              · rw [if_pos hps] at h ⊢
                rw [exceptPureOk, exceptBindOk] at h
                exact ⟨[], rfl, by
                  rw [List.append_nil]
                  exact fanThermal_states hd cid det a a' h⟩
              · rw [if_neg hps] at h ⊢
                cases hl : pyLower (safe_get det [PyKey.str "PowerState"]
                    (Json.str "NA")) with
                | error e => rw [hl, exceptBindErr] at h; exact Except.noConfusion h
                | ok l =>
                  rw [hl, exceptBindOk] at h
                  rw [exceptBindOk]
                  rw [exceptPureOk, exceptBindOk] at h
                  exact ⟨[l], rfl, fanThermal_states hd cid det
                    { a with power_states := a.power_states ++ [l] } a' h⟩
            · have htr' : pyTruthy det = false := Bool.eq_false_iff.mpr htr
              rw [if_pos (by rw [htr']; exact Bool.false_ne_true)]
              have hps : isStrEq (safe_get det [PyKey.str "PowerState"]
                  (Json.str "NA")) "NA" = true := by
                rw [safe_get_falsy_str det "PowerState" htr']
                rfl
              rw [if_pos hps] at h
              rw [exceptPureOk, exceptBindOk] at h
              exact ⟨[], rfl, by
                rw [List.append_nil]
                exact fanThermal_states hd cid det a a' h⟩

/-- A power-walk member's power-state contribution is exactly the
reference collector's. -/
theorem powerStep_collect (hd : HostDir) (a : PowerAcc) (m : Json) (a' : PowerAcc)
    (h : powerStep hd a m = Except.ok a') :
    ∃ c, collectHead hd m = Except.ok c ∧
      a'.power_states = a.power_states ++ c := by
  simp only [powerStep] at h
  simp only [collectHead]
  cases hg : pyGet m "@odata.id" Json.null with
  | error e => rw [hg, exceptBindErr] at h; exact Except.noConfusion h
  | ok ref =>
    rw [hg, exceptBindOk] at h
    rw [safe_get_single_of_pyGet m "@odata.id" ref hg]
    cases hseg : lastSegmentJson ref with
    | error e => rw [hseg, exceptBindErr] at h; exact Except.noConfusion h
    | ok oid =>
      rw [hseg, exceptBindOk] at h
      rw [exceptBindOk]
      cases oid with
      | none =>
        dsimp only at h ⊢
        rw [exceptPureOk] at h
        injection h with h1
        subst h1
        exact ⟨[], rfl, by simp⟩
      | some cid =>
        dsimp only at h ⊢
        by_cases hid : cid = ""
        · rw [if_pos hid] at h ⊢
          rw [exceptPureOk] at h
          injection h with h1
          subst h1
          exact ⟨[], rfl, by simp⟩
        · rw [if_neg hid] at h ⊢
          cases hdet : hd ["Chassis", cid ++ ".json"] with
          | none =>
            rw [hdet] at h
            dsimp only at h
            rw [exceptPureOk] at h
            injection h with h1
            subst h1
            rw [Option.getD_none]
            rw [if_pos (show ¬ pyTruthy Json.null = true by simp [pyTruthy])]
            exact ⟨[], rfl, by simp⟩
          | some det =>
            rw [hdet] at h
            dsimp only at h
            rw [Option.getD_some]
            by_cases htr : pyTruthy det = true
            · rw [if_neg (fun hh => hh htr)]
              by_cases hps : isStrEq (safe_get det [PyKey.str "PowerState"]
                  (Json.str "NA")) "NA" = true
              · rw [if_pos hps] at h ⊢
                rw [exceptPureOk, exceptBindOk] at h
                exact ⟨[], rfl, by
                  rw [List.append_nil]
                  exact powerCapture_states hd cid det a a' h⟩
              · rw [if_neg hps] at h ⊢
                cases hl : pyLower (safe_get det [PyKey.str "PowerState"]
                    (Json.str "NA")) with
                | error e => rw [hl, exceptBindErr] at h; exact Except.noConfusion h
                | ok l =>
                  rw [hl, exceptBindOk] at h
                  rw [exceptBindOk]
                  rw [exceptPureOk, exceptBindOk] at h
                  exact ⟨[l], rfl, powerCapture_states hd cid det
                    { a with power_states := a.power_states ++ [l] } a' h⟩
            · have htr' : pyTruthy det = false := Bool.eq_false_iff.mpr htr
              rw [if_pos (by rw [htr']; exact Bool.false_ne_true)]
              have hps : isStrEq (safe_get det [PyKey.str "PowerState"]
                  (Json.str "NA")) "NA" = true := by
                rw [safe_get_falsy_str det "PowerState" htr']
                rfl
              rw [if_pos hps] at h
              rw [exceptPureOk, exceptBindOk] at h
              exact ⟨[], rfl, by
                rw [List.append_nil]
                exact powerCapture_states hd cid det a a' h⟩

/-- A monadic fold whose steps contribute exactly the reference
collector's contributions accumulates exactly the collected list. -/
theorem foldlM_collect {σ : Type} (proj : σ → List String)
    (step : σ → Json → Except PyErr σ) (hd : HostDir)
    (hstep : ∀ a m a', step a m = Except.ok a' →
      ∃ c, collectHead hd m = Except.ok c ∧ proj a' = proj a ++ c) :
    ∀ (ms : List Json) (a a' : σ), List.foldlM step a ms = Except.ok a' →
      ∃ l, collectPowerStates hd ms = Except.ok l ∧ proj a' = proj a ++ l := by
  intro ms
  induction ms with
  | nil =>
    intro a a' h
    rw [List.foldlM_nil, exceptPureOk] at h
    injection h with h1
    subst h1
    exact ⟨[], rfl, by simp⟩
  | cons m ms ih =>
    intro a a' h
    rw [List.foldlM_cons] at h
    cases hs : step a m with
    | error e => rw [hs, exceptBindErr] at h; exact Except.noConfusion h
    | ok b =>
      rw [hs, exceptBindOk] at h
      obtain ⟨c, hc, hpb⟩ := hstep a m b hs
      obtain ⟨l, hl, hpl⟩ := ih b a' h
      refine ⟨c ++ l, ?_, ?_⟩
      · simp only [collectPowerStates]
        rw [hc, exceptBindOk, hl, exceptBindOk, exceptPureOk]
      · rw [hpl, hpb, List.append_assoc]

/-- The code-point comparison is total. -/
theorem pyCharListLe_total :
    ∀ as bs : List Char, pyCharListLe as bs = true ∨ pyCharListLe bs as = true := by
  intro as
  induction as with
  | nil => intro bs; exact Or.inl rfl
  | cons a at' ih =>
    intro bs
    cases bs with
    | nil => exact Or.inr rfl
    | cons b bt =>
      by_cases hab : a = b
      · subst hab
        simp only [pyCharListLe, if_pos rfl]
        exact ih bt
      · have hba : b ≠ a := fun hh => hab hh.symm
        have hne : a.toNat ≠ b.toNat := by
          intro hh
          apply hab
          apply Char.ext
          apply UInt32.ext
          exact hh
        simp only [pyCharListLe, if_neg hab, if_neg hba]
        rcases Nat.lt_or_ge a.toNat b.toNat with hlt | hge
        · exact Or.inl (decide_eq_true hlt)
        · have hlt2 : b.toNat < a.toNat := Nat.lt_of_le_of_ne hge (fun hh => hne hh.symm)
          exact Or.inr (decide_eq_true hlt2)

/-- The code-point comparison is transitive. -/
theorem pyCharListLe_trans :
    ∀ as bs cs : List Char, pyCharListLe as bs = true →
      pyCharListLe bs cs = true → pyCharListLe as cs = true := by
  intro as
  induction as with
  | nil => intro bs cs _ _; rfl
  | cons a at' ih =>
    intro bs cs h1 h2
    cases bs with
    | nil => exact absurd h1 (by simp [pyCharListLe])
    | cons b bt =>
      cases cs with
      | nil => exact absurd h2 (by simp [pyCharListLe])
      | cons c ct =>
        by_cases hab : a = b
        · subst hab
          simp only [pyCharListLe, if_pos rfl] at h1
          by_cases hac : a = c
          · subst hac
            simp only [pyCharListLe, if_pos rfl] at h2 ⊢
            exact ih bt ct h1 h2
          · simp only [pyCharListLe, if_neg hac] at h2 ⊢
            exact h2
        · simp only [pyCharListLe, if_neg hab] at h1
          have h1' : a.toNat < b.toNat := of_decide_eq_true h1
          by_cases hbc : b = c
          · subst hbc
            simp only [pyCharListLe, if_neg hab]
            exact h1
          · simp only [pyCharListLe, if_neg hbc] at h2
            have h2' : b.toNat < c.toNat := of_decide_eq_true h2
            have hac' : a.toNat < c.toNat := Nat.lt_trans h1' h2'
            by_cases hac : a = c
            · subst hac
              exact absurd hac' (by omega)
            · simp only [pyCharListLe, if_neg hac]
              exact decide_eq_true hac'

/-- C10: on any host where the three walks succeed, the power report
stores the alphabetically sorted power states, while the fan and
temperature reports keep them in chassis member order (the temperature
report's sequence equals the fan report's). -/
theorem c10_power_states_order :
    ∀ (hd : HostDir) (hostname datacenter : String)
      (pr : PowerResult) (fr : FanResult) (tr : TempResult),
      get_power_metrics hd hostname datacenter = Except.ok pr →
      get_fan_metrics hd hostname datacenter = Except.ok fr →
      get_temperature_information hd hostname datacenter = Except.ok tr →
      pr.power_states = sortStrings fr.power_states ∧
      tr.power_states = fr.power_states ∧
      pr.power_states.Sorted (fun a b => pyStrLe a b = true) := by
  intro hd hostname datacenter pr fr tr hp hf ht
  suffices hL : ∃ L, pr.power_states = sortStrings L ∧
      fr.power_states = L ∧ tr.power_states = L by
    obtain ⟨L, h1, h2, h3⟩ := hL
    refine ⟨by rw [h1, h2], by rw [h3, h2], ?_⟩
    rw [h1]
    haveI htot : IsTotal String (fun a b => pyStrLe a b = true) :=
      ⟨fun a b => pyCharListLe_total a.data b.data⟩
    haveI htrans : IsTrans String (fun a b => pyStrLe a b = true) :=
      ⟨fun a b c hh1 hh2 => pyCharListLe_trans a.data b.data c.data hh1 hh2⟩
    exact List.sorted_insertionSort (fun a b => pyStrLe a b = true) L
  simp only [get_power_metrics] at hp
  simp only [get_fan_metrics] at hf
  simp only [get_temperature_information] at ht
  cases hc : hd ["Chassis.json"] with
  | none =>
    rw [hc] at hp hf ht
    dsimp only at hp hf
    rw [exceptPureOk] at hp hf
    injection hp with hp1
    injection hf with hf1
    subst hp1
    subst hf1
    rw [Option.getD_none] at ht
    rw [if_pos (show ¬ pyTruthy Json.null = true by simp [pyTruthy])] at ht
    rw [exceptPureOk] at ht
    injection ht with ht1
    subst ht1
    exact ⟨[], rfl, rfl, rfl⟩
  | some cd =>
    rw [hc] at hp hf ht
    dsimp only at hp hf
    rw [Option.getD_some] at ht
    cases hm : pyGet cd "Members" (Json.arr []) with
    | error e => rw [hm, exceptBindErr] at hp; exact Except.noConfusion hp
    | ok mems =>
      rw [hm, exceptBindOk] at hp
      rw [hm, exceptBindOk] at hf
      cases cd with
      | null => exact Except.noConfusion hm
      | bool b => exact Except.noConfusion hm
      | int n => exact Except.noConfusion hm
      | num q => exact Except.noConfusion hm
      | str s => exact Except.noConfusion hm
      | arr xs => exact Except.noConfusion hm
      | obj kvs =>
        simp only [pyGet, Except.ok.injEq] at hm
        by_cases hcdt : pyTruthy (Json.obj kvs) = true
        · rw [if_neg (fun hh => hh hcdt)] at ht
          by_cases hmn : mems.isNull = true
          · have hmnull : mems = Json.null := Json.isNull_iff.mp hmn
            subst hmnull
            rw [if_pos (show ¬ pyTruthy Json.null = true by simp [pyTruthy])] at hp hf
            rw [exceptPureOk] at hp hf
            injection hp with hp1
            injection hf with hf1
            subst hp1
            subst hf1
            have hsg : safe_get (Json.obj kvs) [PyKey.str "Members"] (Json.arr []) =
                Json.arr [] := by
              simp [safe_get, hm, Json.isNull]
            rw [hsg] at ht
            rw [if_pos (show ¬ pyTruthy (pyOr (Json.arr []) (Json.arr [])) = true by
              simp [pyOr, pyTruthy])] at ht
            rw [exceptPureOk] at ht
            injection ht with ht1
            subst ht1
            exact ⟨[], rfl, rfl, rfl⟩
          · have hmn' : mems.isNull = false := Bool.eq_false_iff.mpr hmn
            have hsg : safe_get (Json.obj kvs) [PyKey.str "Members"] (Json.arr []) =
                mems := by
              simp [safe_get, hm, hmn']
            rw [hsg] at ht
            by_cases hmt : pyTruthy mems = true
            · have hpo : pyOr mems (Json.arr []) = mems := by simp [pyOr, hmt]
              rw [hpo] at ht
              rw [if_neg (fun hh => hh hmt)] at hp hf ht
              cases hms : toIterable mems with
              | error e => rw [hms, exceptBindErr] at hp; exact Except.noConfusion hp
              | ok ms =>
                rw [hms, exceptBindOk] at hp hf ht
                cases hpacc : List.foldlM (powerStep hd)
                    ⟨[], false, Json.str "NA", Json.str "NA", Json.str "NA",
                      Json.str "NA"⟩ ms with
                | error e => rw [hpacc, exceptBindErr] at hp; exact Except.noConfusion hp
                | ok pacc =>
                  rw [hpacc, exceptBindOk, exceptPureOk] at hp
                  injection hp with hp1
                  subst hp1
                  cases hfacc : List.foldlM (fanStep hd) ⟨[], []⟩ ms with
                  | error e => rw [hfacc, exceptBindErr] at hf; exact Except.noConfusion hf
                  | ok facc =>
                    rw [hfacc, exceptBindOk, exceptPureOk] at hf
                    injection hf with hf1
                    subst hf1
                    cases htacc : List.foldlM (tempStep hd) ⟨[], []⟩ ms with
                    | error e => rw [htacc, exceptBindErr] at ht; exact Except.noConfusion ht
                    | ok tacc =>
                      rw [htacc, exceptBindOk, exceptPureOk] at ht
                      injection ht with ht1
                      subst ht1
                      obtain ⟨Lp, hLp, hsp⟩ := foldlM_collect
                        (fun x => x.power_states) (powerStep hd) hd
                        (fun a m a' hh => powerStep_collect hd a m a' hh)
                        ms _ pacc hpacc
                      obtain ⟨Lf, hLf, hsf⟩ := foldlM_collect
                        (fun x => x.power_states) (fanStep hd) hd
                        (fun a m a' hh => fanStep_collect hd a m a' hh)
                        ms _ facc hfacc
                      obtain ⟨Lt, hLt, hst⟩ := foldlM_collect
                        (fun x => x.power_states) (tempStep hd) hd
                        (fun a m a' hh => tempStep_collect hd a m a' hh)
                        ms _ tacc htacc
                      have hpf : Lp = Lf := by
                        have := hLp.symm.trans hLf
                        injection this
                      have htf : Lt = Lf := by
                        have := hLt.symm.trans hLf
                        injection this
                      rw [List.nil_append] at hsp hsf hst
                      refine ⟨Lf, ?_, ?_, ?_⟩
                      · show sortStrings pacc.power_states = sortStrings Lf
                        rw [hsp, hpf]
                      · show facc.power_states = Lf
                        exact hsf
                      · show tacc.power_states = Lf
                        rw [hst, htf]
            · have hmt' : pyTruthy mems = false := Bool.eq_false_iff.mpr hmt
              rw [if_pos (by rw [hmt']; exact Bool.false_ne_true)] at hp hf
              have hpo : pyOr mems (Json.arr []) = Json.arr [] := by
                simp [pyOr, hmt']
              rw [hpo] at ht
              rw [if_pos (show ¬ pyTruthy (Json.arr []) = true by simp [pyTruthy])] at ht
              rw [exceptPureOk] at hp hf ht
              injection hp with hp1
              injection hf with hf1
              injection ht with ht1
              subst hp1
              subst hf1
              subst ht1
              exact ⟨[], rfl, rfl, rfl⟩
        · have hcd' : pyTruthy (Json.obj kvs) = false := Bool.eq_false_iff.mpr hcdt
          rw [if_pos (by rw [hcd']; exact Bool.false_ne_true)] at ht
          rw [exceptPureOk] at ht
          injection ht with ht1
          subst ht1
          cases kvs with
          | cons kv t => simp [pyTruthy] at hcd'
          | nil =>
            have hme : mems = Json.arr [] := by
              rw [← hm]
              rfl
            subst hme
            rw [if_pos (show ¬ pyTruthy (Json.arr []) = true by simp [pyTruthy])] at hp hf
            rw [exceptPureOk] at hp hf
            injection hp with hp1
            injection hf with hf1
            subst hp1
            subst hf1
            exact ⟨[], rfl, rfl, rfl⟩

/-- A host with two chassis Z then Y whose power states are On then
Off: member order gives on, off; alphabetical order gives off, on. -/
def hdTwoStates : HostDir := fun p =>
  if p = ["Chassis.json"] then
    some (Json.obj [("Members", Json.arr
      [mref "/redfish/v1/Chassis/Z", mref "/redfish/v1/Chassis/Y"])])
  else if p = ["Chassis", "Z.json"] then
    some (Json.obj [("PowerState", Json.str "On")])
  else if p = ["Chassis", "Y.json"] then
    some (Json.obj [("PowerState", Json.str "Off")])
  else none

/-- Witness for C10 on a concrete host: the power report's sequence is
the sorted member-order list and the temperature report matches the fan
report. -/
theorem c10_witness :
    (get_power_metrics hdTwoStates "host1" "dc1").map (fun r => r.power_states) =
      Except.ok (sortStrings ["on", "off"]) ∧
    (get_temperature_information hdTwoStates "host1" "dc1").map
        (fun r => r.power_states) =
      (get_fan_metrics hdTwoStates "host1" "dc1").map (fun r => r.power_states) := by
  have hp : get_power_metrics hdTwoStates "host1" "dc1" =
      Except.ok ⟨"dc1", "host1", Json.str "NA", ["off", "on"], Json.str "NA",
        Json.str "NA", Json.str "NA", Json.str "NA"⟩ := rfl
  have hf : get_fan_metrics hdTwoStates "host1" "dc1" =
      Except.ok ⟨"dc1", "host1", ["on", "off"], []⟩ := rfl
  have ht : get_temperature_information hdTwoStates "host1" "dc1" =
      Except.ok ⟨"dc1", "host1", ["on", "off"], [],
        "No temperature sensors found"⟩ := rfl
  obtain ⟨h1, h2, _⟩ := c10_power_states_order hdTwoStates "host1" "dc1"
    _ _ _ hp hf ht
  constructor
  · rw [hp]
    exact congrArg Except.ok h1
  · rw [ht, hf]
    exact congrArg Except.ok h2

/-- C9: the two report mains read nothing but the snapshot, so two runs
over snapshots with identical datacenter listings, host listings and
file contents produce identical results — byte-identical output on
success and the identical failure otherwise. -/
theorem c9_deterministic :
    ∀ s₁ s₂ : Snapshot,
      s₁.datacenters = s₂.datacenters →
      (∀ d, s₁.hosts d = s₂.hosts d) →
      (∀ d h p, s₁.file d h p = s₂.file d h p) →
      raidMain s₁ = raidMain s₂ ∧ powerMain s₁ = powerMain s₂ := by
  intro s₁ s₂ hdc hh hf
  have heq : s₁ = s₂ := by
    cases s₁ with
    | mk d1 h1 f1 =>
      cases s₂ with
      | mk d2 h2 f2 =>
        simp only [Snapshot.mk.injEq]
        refine ⟨hdc, funext hh, ?_⟩
        funext d h p
        exact hf d h p
  rw [heq]
  exact ⟨rfl, rfl⟩

/-- A one-datacenter, one-host snapshot used to instantiate the
determinism theorem. -/
def snapTiny : Snapshot :=
  ⟨["dc1"], fun _ => ["host1"], fun _ _ => hdTwoStates⟩

/-- Witness for C9: two runs over the same concrete snapshot agree. -/
theorem c9_witness :
    raidMain snapTiny = raidMain snapTiny ∧
    powerMain snapTiny = powerMain snapTiny :=
  c9_deterministic snapTiny snapTiny rfl (fun _ => rfl) (fun _ _ _ => rfl)

end Redfish
